import Mathlib

/-!
Verification development for the beacon-skill protocol runtime.

Each definition below is a shallow embedding of a function of the Python
source (`src/beacon_skill/...`), translated clause by clause.  Machine
integers are modelled as `Int`/`Nat`, Python floats as `ℚ` (the claims under
scrutiny only involve the algebraic identities the code computes, never
rounding of binary floating point), Python `None`-able values as `Option`,
raised exceptions as `Except`, and JSON dictionaries as association lists.
A field that the Python code accesses with `.get(key, default)` is modelled
as a field holding the default when absent.
-/

namespace BeaconSkill

/- ── Generic string helpers shared by several components ── -/
/-- Python `str.split()` (no argument): split on runs of whitespace,
dropping empty tokens.  Worker with an accumulator of the current token
(in reverse). -/
def pySplitGo : List Char → List Char → List (List Char)
  | [], acc => if acc.isEmpty then [] else [acc.reverse]
  | c :: t, acc =>
    if c.isWhitespace then
      if acc.isEmpty then pySplitGo t [] else acc.reverse :: pySplitGo t []
    else pySplitGo t (c :: acc)

/-- Python `str.split()` on a list of characters. -/
def pySplit (s : List Char) : List (List Char) := pySplitGo s []

/-- Python's substring test `nee in hay`. -/
def listContains (nee : List Char) : List Char → Bool
  | [] => nee.isEmpty
  | c :: t => nee.isPrefixOf (c :: t) || listContains nee t

/-- Python `str.lower()` on a list of characters (ASCII case folding). -/
def lowerL (s : List Char) : List Char := s.map Char.toLower

/- ── SHA-256 (the `hashlib.sha256` the source calls) over byte lists ── -/
/-- The constant 2^32, the word modulus of SHA-256. -/
def m32 : Nat := 4294967296

/-- Right-rotate a 32-bit word by `n`. -/
def rotr (n w : Nat) : Nat := (w / 2 ^ n + w % 2 ^ n * 2 ^ (32 - n)) % m32

/-- Logical right shift of a 32-bit word. -/
def shr (n w : Nat) : Nat := w / 2 ^ n

def smallSigma0 (w : Nat) : Nat := rotr 7 w ^^^ rotr 18 w ^^^ shr 3 w

def smallSigma1 (w : Nat) : Nat := rotr 17 w ^^^ rotr 19 w ^^^ shr 10 w

def bigSigma0 (w : Nat) : Nat := rotr 2 w ^^^ rotr 13 w ^^^ rotr 22 w

def bigSigma1 (w : Nat) : Nat := rotr 6 w ^^^ rotr 11 w ^^^ rotr 25 w

/-- The 64 SHA-256 round constants (decimal). -/
def shaK : List Nat :=
  [1116352408, 1899447441, 3049323471, 3921009573, 961987163, 1508970993,
   2453635748, 2870763221, 3624381080, 310598401, 607225278, 1426881987,
   1925078388, 2162078206, 2614888103, 3248222580, 3835390401, 4022224774,
   264347078, 604807628, 770255983, 1249150122, 1555081692, 1996064986,
   2554220882, 2821834349, 2952996808, 3210313671, 3336571891, 3584528711,
   113926993, 338241895, 666307205, 773529912, 1294757372, 1396182291,
   1695183700, 1986661051, 2177026350, 2456956037, 2730485921, 2820302411,
   3259730800, 3345764771, 3516065817, 3600352804, 4094571909, 275423344,
   430227734, 506948616, 659060556, 883997877, 958139571, 1322822218,
   1537002063, 1747873779, 1955562222, 2024104815, 2227730452, 2361852424,
   2428436474, 2756734187, 3204031479, 3329325298]

/-- Big-endian byte rendering of `v` on `n` bytes. -/
def beBytes (n v : Nat) : List Nat :=
  (List.range n).map fun i => v / 2 ^ (8 * (n - 1 - i)) % 256

/-- SHA-256 message padding: `0x80`, zeros to 56 mod 64, 8-byte big-endian
bit length. -/
def shaPad (msg : List Nat) : List Nat :=
  let len := msg.length
  let padZeros := (119 - len % 64) % 64
  msg ++ [0x80] ++ List.replicate padZeros 0 ++ beBytes 8 (len * 8)

/-- Split a byte list into 64-byte blocks. -/
def chunk64 (l : List Nat) : List (List Nat) :=
  if h : l = [] then [] else l.take 64 :: chunk64 (l.drop 64)
termination_by l.length
decreasing_by
  simp only [List.length_drop]
  have hl : 0 < l.length := List.length_pos.mpr h
  omega

/-- The 16 initial 32-bit words of a 64-byte block (big endian). -/
def toWords (block : List Nat) : List Nat :=
  (List.range 16).map fun i =>
    ((block.getD (4 * i) 0 * 256 + block.getD (4 * i + 1) 0) * 256 +
        block.getD (4 * i + 2) 0) * 256 + block.getD (4 * i + 3) 0

/-- One message-schedule extension step: append word `w[t]` for the next `t`. -/
def extendStep (ws : List Nat) : List Nat :=
  let n := ws.length
  ws ++ [(smallSigma1 (ws.getD (n - 2) 0) + ws.getD (n - 7) 0 +
          smallSigma0 (ws.getD (n - 15) 0) + ws.getD (n - 16) 0) % m32]

/-- Full 64-word message schedule of a block. -/
def schedule (block : List Nat) : List Nat := extendStep^[48] (toWords block)

/-- SHA-256 working state (a..h). -/
structure Sha8 where
  a : Nat
  b : Nat
  c : Nat
  d : Nat
  e : Nat
  f : Nat
  g : Nat
  h : Nat

/-- One round of the SHA-256 compression function. -/
def compressStep (ws : List Nat) (st : Sha8) (i : Nat) : Sha8 :=
  let ch := (st.e &&& st.f) ^^^ ((st.e ^^^ (m32 - 1)) &&& st.g)
  let t1 := (st.h + bigSigma1 st.e + ch + shaK.getD i 0 + ws.getD i 0) % m32
  let maj := (st.a &&& st.b) ^^^ (st.a &&& st.c) ^^^ (st.b &&& st.c)
  let t2 := (bigSigma0 st.a + maj) % m32
  ⟨(t1 + t2) % m32, st.a, st.b, st.c, (st.d + t1) % m32, st.e, st.f, st.g⟩

/-- Compress one 64-byte block into the running hash state. -/
def compressBlock (st : Sha8) (block : List Nat) : Sha8 :=
  let ws := schedule block
  let r := (List.range 64).foldl (compressStep ws) st
  ⟨(st.a + r.a) % m32, (st.b + r.b) % m32, (st.c + r.c) % m32,
   (st.d + r.d) % m32, (st.e + r.e) % m32, (st.f + r.f) % m32,
   (st.g + r.g) % m32, (st.h + r.h) % m32⟩

/-- SHA-256 of a byte list, as 32 bytes. -/
def sha256Bytes (msg : List Nat) : List Nat :=
  let fin := (chunk64 (shaPad msg)).foldl compressBlock
    ⟨1779033703, 3144134277, 1013904242, 2773480762,
     1359893119, 2600822924, 528734635, 1541459225⟩
  beBytes 4 fin.a ++ beBytes 4 fin.b ++ beBytes 4 fin.c ++ beBytes 4 fin.d ++
    beBytes 4 fin.e ++ beBytes 4 fin.f ++ beBytes 4 fin.g ++ beBytes 4 fin.h

/-- Lowercase hexadecimal digit. -/
def hexDigit (n : Nat) : Char :=
  if n < 10 then Char.ofNat (48 + n) else Char.ofNat (87 + n)

/-- Two-digit lowercase hex of a byte. -/
def byteHex (b : Nat) : List Char := [hexDigit (b / 16 % 16), hexDigit (b % 16)]

/-- Python `.hexdigest()`: lowercase hex string of a byte list. -/
def bytesToHex (bs : List Nat) : String :=
  String.mk (bs.foldr (fun b acc => byteHex b ++ acc) [])

/-- Python `hashlib.sha256(msg).hexdigest()`. -/
def sha256Hex (msg : List Nat) : String := bytesToHex (sha256Bytes msg)

/-- UTF-8 encoding of one character. -/
def utf8Char (c : Char) : List Nat :=
  let n := c.toNat
  if n < 0x80 then [n]
  else if n < 0x800 then [0xc0 + n / 64, 0x80 + n % 64]
  else if n < 0x10000 then
    [0xe0 + n / 4096, 0x80 + n / 64 % 64, 0x80 + n % 64]
  else
    [0xf0 + n / 262144, 0x80 + n / 4096 % 64, 0x80 + n / 64 % 64,
     0x80 + n % 64]

/-- Python `str.encode("utf-8")`. -/
def utf8 (s : String) : List Nat := (s.toList.map utf8Char).flatten

/- ── JSON values and `json.dumps` (anchor.py `_canonical_json` et al.) ──
A Python dict is modelled as an association list; the data-model invariant
that dict keys are unique appears as `Nodup` hypotheses in the theorems. -/
inductive Json where
  | null
  | bool (b : Bool)
  | int (n : Int)
  | str (s : String)
  | arr (xs : List Json)
  | obj (kvs : List (String × Json))

/-- Four-digit lowercase hex. -/
def hex4 (n : Nat) : List Char :=
  [hexDigit (n / 4096 % 16), hexDigit (n / 256 % 16), hexDigit (n / 16 % 16),
   hexDigit (n % 16)]

/-- Python `json.dumps` escaping of one character (default `ensure_ascii=True`,
non-ASCII escaped as `\uXXXX`, astral characters as surrogate pairs). -/
def escChar (c : Char) : List Char :=
  let n := c.toNat
  if c = '"' then ['\\', '"']
  else if c = '\\' then ['\\', '\\']
  else if c = '\n' then ['\\', 'n']
  else if c = '\t' then ['\\', 't']
  else if c = '\r' then ['\\', 'r']
  else if n = 8 then ['\\', 'b']
  else if n = 12 then ['\\', 'f']
  else if n < 0x20 || 0x7e < n then
    if n < 0x10000 then '\\' :: 'u' :: hex4 n
    else
      ('\\' :: 'u' :: hex4 (0xd800 + (n - 0x10000) / 1024)) ++
        ('\\' :: 'u' :: hex4 (0xdc00 + (n - 0x10000) % 1024))
  else [c]

/-- Python `json.dumps` of a string value. -/
def encStr (s : String) : String :=
  String.mk ('"' :: (s.toList.map escChar).flatten ++ ['"'])

/-- Python dict lookup on an association list. -/
def lookupKey {α : Type} (k : String) : List (String × α) → Option α
  | [] => none
  | (k', v) :: t => if k = k' then some v else lookupKey k t

/-- Python dict item assignment `d[k] = v` for a key already present. -/
def updateKey {α : Type} (k : String) (v : α) : List (String × α) → List (String × α) :=
  List.map fun kv => if kv.1 = k then (kv.1, v) else kv

/-- Key order used by `json.dumps(..., sort_keys=True)`: entries compared by
their key (dict keys are unique, so ties cannot occur). -/
def entryLe (x y : String × String) : Prop := x.1 ≤ y.1

instance : DecidableRel entryLe := fun x y => (inferInstance : Decidable (x.1 ≤ y.1))

instance : IsTotal (String × String) entryLe := ⟨fun x y => le_total x.1 y.1⟩

instance : IsTrans (String × String) entryLe := ⟨fun _ _ _ hxy hyz => le_trans hxy hyz⟩

/-- Python `sorted(d.items())` on serialized entries. -/
def sortEntries (l : List (String × String)) : List (String × String) :=
  List.insertionSort entryLe l

/-- Render already-serialized and sorted object entries with key separator
`ksep` (`":"` canonical, `": "` for the default `json.dumps`). -/
def renderEntries (ksep : String) (l : List (String × String)) : List String :=
  (sortEntries l).map fun kv => encStr kv.1 ++ ksep ++ kv.2

mutual

/-- Python `json.dumps(v, sort_keys=True)` with item separator `isep` and key
separator `ksep`.  The canonical form of the source passes `(",", ":")`;
`json.dumps` without `separators` uses `(", ", ": ")`. -/
def jser (isep ksep : String) : Json → String
  | .null => "null"
  | .bool true => "true"
  | .bool false => "false"
  | .int n => toString n
  | .str s => encStr s
  | .arr xs => "[" ++ String.intercalate isep (jserList isep ksep xs) ++ "]"
  | .obj kvs =>
    "\x7b" ++ String.intercalate isep (renderEntries ksep (jserKV isep ksep kvs)) ++ "\x7d"

def jserList (isep ksep : String) : List Json → List String
  | [] => []
  | x :: xs => jser isep ksep x :: jserList isep ksep xs

def jserKV (isep ksep : String) : List (String × Json) → List (String × String)
  | [] => []
  | (k, v) :: xs => (k, jser isep ksep v) :: jserKV isep ksep xs

end

/-- anchor.py `_canonical_json`: sorted keys, separators `(",", ":")`,
encoded to UTF-8 bytes. -/
def canonicalJson (d : List (String × Json)) : List Nat :=
  utf8 (jser "," ":" (.obj d))

/-- The argument of anchor.py `commitment_hash`: `Union[str, bytes, Dict]`. -/
inductive CommitData where
  | dict (d : List (String × Json))
  | str (s : String)
  | bytes (b : List Nat)

/-- anchor.py `commitment_hash`: canonical JSON for dicts, UTF-8 for
strings, raw bytes for bytes, then SHA-256 hex digest. -/
def commitment_hash : CommitData → String
  | .dict d => sha256Hex (canonicalJson d)
  | .str s => sha256Hex (utf8 s)
  | .bytes b => sha256Hex b

/-- Strict key order on entries; used to pin down the sorted entry list. -/
def entryLt (x y : String × String) : Prop := x.1 < y.1

instance : IsAntisymm (String × String) entryLt :=
  ⟨fun _ _ h1 h2 => absurd h2 (lt_asymm h1)⟩

namespace Tasks

/- ── tasks.py: bounty lifecycle state machine ── -/
/-- tasks.py `TRANSITIONS`, read with `.get(current_state, [])`. -/
def TRANSITIONS (s : String) : List String :=
  if s = "open" then ["offered", "cancelled"]
  else if s = "offered" then ["accepted", "rejected", "cancelled"]
  else if s = "accepted" then ["delivered", "cancelled"]
  else if s = "delivered" then ["confirmed", "disputed"]
  else if s = "confirmed" then ["paid"]
  else if s = "disputed" then ["confirmed", "cancelled"]
  else []

/-- One line of `tasks.jsonl`.  Every event written by `create` or
`transition` carries `task_id`, `state` and `ts`; the envelope-derived
extras never affect the folded `state` field. -/
structure TaskEvent where
  task_id : String
  state : String
  ts : Int
deriving DecidableEq

/-- Source `TaskManager._build_task_state` restricted to the `state` field: filter
the log by task id and fold `dict.update`, so the last matching event's
`state` wins; `None` when the task has no events. -/
def buildTaskState (log : List TaskEvent) (tid : String) : Option String :=
  let tes := log.filter fun e => e.task_id == tid
  if tes.isEmpty then none else some (tes.foldl (fun _ e => e.state) "")

/-- Source `TaskManager.transition`: validate against `TRANSITIONS` and append, or
raise `ValueError` and leave the log untouched.  Returns the raised-or-ok
result together with the log after the call. -/
def transition (log : List TaskEvent) (tid newState : String) (now : Int) :
    Except String TaskEvent × List TaskEvent :=
  match buildTaskState log tid with
  | none => (.error ("Task " ++ tid ++ " not found"), log)
  | some current =>
    if newState ∈ TRANSITIONS current then
      (.ok ⟨tid, newState, now⟩, log ++ [⟨tid, newState, now⟩])
    else
      (.error ("Invalid transition: " ++ current ++ " -> " ++ newState), log)

end Tasks

namespace Outbox

/- ── outbox.py: persistent outbound queue with retry ── -/
/-- outbox.py `MAX_RETRY_ATTEMPTS`. -/
def MAX_RETRY_ATTEMPTS : Nat := 3

/-- One value of the `outbox_pending.json` index (`queue` fills every
field). -/
structure OutboxItem where
  action_id : String
  action_type : String := ""
  target_agent_id : String := ""
  transport_hint : String := ""
  status : String := "pending"
  source : String := ""
  created_at : Int := 0
  updated_at : Int := 0
  attempts : Nat := 0
  error : String := ""
  conversation_id : String := ""
deriving DecidableEq

/-- Source `OutboxManager.mark_retry`: increment `attempts` of the item with the
given id; once `attempts` reaches `MAX_RETRY_ATTEMPTS` the status flips to
`failed` with `error = "max_retries_exceeded"`.  The pending index is a
dict, modelled as its value list in insertion order. -/
def mark_retry (idx : List OutboxItem) (aid : String) (now : Int) : List OutboxItem :=
  idx.map fun it =>
    if it.action_id = aid then
      if it.attempts + 1 ≥ MAX_RETRY_ATTEMPTS then
        { it with attempts := it.attempts + 1, updated_at := now,
                  status := "failed", error := "max_retries_exceeded" }
      else { it with attempts := it.attempts + 1, updated_at := now }
    else it

/-- Sort key of `OutboxManager.pending`: `created_at` (Python stable
`list.sort`, matched by insertion sort). -/
def createdLe (x y : OutboxItem) : Prop := x.created_at ≤ y.created_at

instance : DecidableRel createdLe :=
  fun x y => (inferInstance : Decidable (x.created_at ≤ y.created_at))

instance : IsTotal OutboxItem createdLe := ⟨fun x y => le_total x.created_at y.created_at⟩

instance : IsTrans OutboxItem createdLe := ⟨fun _ _ _ hxy hyz => le_trans hxy hyz⟩

/-- Source `OutboxManager.pending`: keep items with status `pending` and
`attempts < MAX_RETRY_ATTEMPTS`, sort by `created_at`, truncate to
`limit` (the Python default is 10). -/
def pending (idx : List OutboxItem) (limit : Nat) : List OutboxItem :=
  let results := idx.filter fun it =>
    it.status == "pending" && decide (it.attempts < MAX_RETRY_ATTEMPTS)
  (List.insertionSort createdLe results).take limit

end Outbox

/- ── Python `round(x, n)` (banker's rounding) on exact rationals ── -/
/-- Round half to even, Python's `round` on an exactly-representable value. -/
def roundHalfEven (q : ℚ) : ℤ :=
  let f := Int.floor q
  let r := q - f
  if r < 1 / 2 then f
  else if 1 / 2 < r then f + 1
  else if f % 2 = 0 then f else f + 1

/-- Python `round(q, n)` with scale `s = 10 ^ n`. -/
def roundScaled (s : Nat) (q : ℚ) : ℚ := (roundHalfEven (q * s) : ℚ) / s

namespace Trust

/- ── trust.py: recency-weighted trust scoring ── -/
/-- trust.py `RECENCY_WEIGHT`. -/
def RECENCY_WEIGHT : ℚ := 1 / 2

/-- One line of `interactions.jsonl`. -/
structure Interaction where
  ts : ℚ
  agent_id : String
  dir : String := ""
  kind : String := ""
  outcome : String := "ok"
  rtc : ℚ := 0
deriving DecidableEq

def positiveOutcomes : List String := ["ok", "delivered", "paid"]

def negativeOutcomes : List String := ["spam", "scam", "timeout", "rejected"]

/-- Loop state of `TrustManager.score`. -/
structure Acc where
  positive : ℚ := 0
  negative : ℚ := 0
  total : Nat := 0
  rtcVolume : ℚ := 0
deriving DecidableEq

/-- One iteration of the `TrustManager.score` loop. -/
def step (cutoff : ℚ) (agentId : String) (acc : Acc) (ix : Interaction) : Acc :=
  if ix.agent_id = agentId then
    let w : ℚ := if cutoff ≤ ix.ts then 1 else RECENCY_WEIGHT
    if ix.outcome ∈ positiveOutcomes then
      { acc with positive := acc.positive + w, total := acc.total + 1,
                 rtcVolume := acc.rtcVolume + |ix.rtc| }
    else if ix.outcome ∈ negativeOutcomes then
      { acc with negative := acc.negative + w, total := acc.total + 1,
                 rtcVolume := acc.rtcVolume + |ix.rtc| }
    else
      { acc with total := acc.total + 1, rtcVolume := acc.rtcVolume + |ix.rtc| }
  else acc

/-- The record returned by `TrustManager.score`. -/
structure ScoreInfo where
  agent_id : String
  score : ℚ
  total : Nat
  positive : ℚ
  negative : ℚ
  rtc_volume : ℚ
deriving DecidableEq

/-- Source `TrustManager.score`: loop over all interactions, weight 1 within the
last 30 days and `RECENCY_WEIGHT` otherwise, raw score
`(positive - negative * 3) / max(total, 1)` clamped to `[-1, 1]` and
rounded to 4 decimal places. -/
def score (interactions : List Interaction) (agentId : String) (now : ℚ) :
    ScoreInfo :=
  let cutoff := now - 30 * 86400
  let acc := interactions.foldl (step cutoff agentId) {}
  let raw := (acc.positive - acc.negative * 3) / max (acc.total : ℚ) 1
  let clamped := max (-1) (min 1 raw)
  { agent_id := agentId, score := roundScaled 10000 clamped, total := acc.total,
    positive := acc.positive, negative := acc.negative,
    rtc_volume := roundScaled 1000000 acc.rtcVolume }

/-- Spec-side weight of one interaction. -/
def weightOf (cutoff : ℚ) (ix : Interaction) : ℚ :=
  if cutoff ≤ ix.ts then 1 else 1 / 2

/-- Interactions of the scored agent. -/
def relevant (ixs : List Interaction) (agentId : String) : List Interaction :=
  ixs.filter fun ix => ix.agent_id == agentId

/-- Spec-side weighted count of the relevant positive interactions. -/
def posW (ixs : List Interaction) (agentId : String) (cutoff : ℚ) : ℚ :=
  (((relevant ixs agentId).filter fun ix =>
      decide (ix.outcome ∈ positiveOutcomes)).map (weightOf cutoff)).sum

/-- Spec-side weighted count of the relevant negative interactions. -/
def negW (ixs : List Interaction) (agentId : String) (cutoff : ℚ) : ℚ :=
  (((relevant ixs agentId).filter fun ix =>
      decide (ix.outcome ∉ positiveOutcomes) &&
        decide (ix.outcome ∈ negativeOutcomes)).map (weightOf cutoff)).sum

end Trust

/- ── Envelopes as consumed by values.py and rules.py ──
String-valued fields that the Python code reads with `.get(key, "")` are
modelled as fields defaulting to `""`; list fields default to `[]`. -/
structure Env where
  kind : String := ""
  agent_id : String := ""
  fromId : String := ""
  text : String := ""
  topics : List String := []
  offers : List String := []
  needs : List String := []
  links : List String := []
  bounty_url : String := ""
  reward_rtc : ℚ := 0
  state : String := ""
  nonce : String := ""
  task_id : String := ""
  name : String := ""
  values : Option (List (String × ℚ)) := none
deriving DecidableEq

namespace Values

/- ── values.py: principles, boundaries, compatibility ── -/
/-- The persistent values document: principle name → weight (the optional
`text` of a principle plays no role in the embedded functions), plus the
boundary list. -/
structure ValuesData where
  principles : List (String × ℚ) := []
  boundaries : List String := []
deriving DecidableEq

/-- Source `ValuesManager.compatibility`: alignment over the union of principle
names, `1 - |w_me - w_them|` when shared, `0.3 * (1 - weight)` when held by
one side only (`my_weight or their_weight` — Python `or` takes the second
operand when the first is falsy, i.e. 0.0), averaged and rounded to 3
decimals; 0.5 when both sides are empty. -/
def compatibility (vd : ValuesData) (their : List (String × ℚ)) : ℚ :=
  let my := vd.principles
  if my.isEmpty && their.isEmpty then 1 / 2
  else
    let allNames := (my.map Prod.fst ++ their.map Prod.fst).dedup
    if allNames.isEmpty then 1 / 2
    else
      let s := (allNames.map fun name =>
        let mw := (lookupKey name my).getD 0
        let tw := (lookupKey name their).getD 0
        if (lookupKey name my).isSome && (lookupKey name their).isSome then
          1 - |mw - tw|
        else
          (3 : ℚ) / 10 * (1 - (if mw ≠ 0 then mw else tw))).sum
      roundScaled 1000 (s / allNames.length)

/-- The lowercased searchable blob `check_boundaries` builds from envelope
text, topics, offers, needs and kind. -/
def envBlob (env : Env) : List Char :=
  lowerL (String.intercalate " "
    [env.text, String.intercalate " " env.topics,
     String.intercalate " " env.offers, String.intercalate " " env.needs,
     env.kind]).toList

/-- Key terms of a boundary: whitespace tokens longer than 3 characters,
lowercased. -/
def boundaryKeywords (b : String) : List (List Char) :=
  ((pySplit b.toList).filter fun w => 3 < w.length).map lowerL

/-- The test `keywords and all(kw in text_blob for kw in keywords)`. -/
def boundaryMatchesBlob (b : String) (blob : List Char) : Bool :=
  !(boundaryKeywords b).isEmpty &&
    (boundaryKeywords b).all fun kw => listContains kw blob

/-- Source `ValuesManager.check_boundaries`: first boundary whose key terms all
appear in the blob, `None` otherwise. -/
def check_boundaries (vd : ValuesData) (env : Env) : Option String :=
  if vd.boundaries.isEmpty then none
  else vd.boundaries.find? fun b => boundaryMatchesBlob b (envBlob env)

end Values

namespace Rules

/- ── rules.py: declarative rules engine ── -/
/-- rules.py `COOLDOWN_S`. -/
def COOLDOWN_S : ℚ := 60

/-- A `when` clause; `none` models an absent key.  An exact-match string in
the Python rule is the one-element list (the source accepts either a scalar
or a list for `kind`/`agent_id`, with identical semantics). -/
structure RWhen where
  kind : Option (List String) := none
  agent_id : Option (List String) := none
  min_rtc : Option ℚ := none
  max_rtc : Option ℚ := none
  min_trust : Option ℚ := none
  max_trust : Option ℚ := none
  min_score : Option ℚ := none
  topic_match : Option (List String) := none
  verified : Option (Option Bool) := none
  platform : Option String := none
  task_state : Option String := none
  values_match : Option ℚ := none
  goal_active : Option Bool := none
  goal_progress : Option String := none

/-- A `then` clause; fields read with `.get(key, default)` are `Option`s. -/
structure RAction where
  action : String := "log"
  message : Option String := none
  kind : Option String := none
  text : Option String := none
  task_id : Option String := none
  reason : Option String := none
  outcome : Option String := none
deriving DecidableEq

structure Rule where
  name : String := "unnamed"
  disabled : Bool := false
  whenCond : RWhen := {}
  thenAct : RAction := {}

/-- An event as passed to `evaluate`: `event.get("envelope") or event` is
modelled by always reading the envelope from `env`. -/
structure REvent where
  env : Env
  score : ℚ := 0
  verified : Option Bool := none
  platform : String := ""
deriving DecidableEq

/-- An entry of the matches list built by `evaluate`. -/
structure RMatch where
  rule : String
  action : RAction
  boundary_violated : Option String := none
deriving DecidableEq

/-- The lowercased blob used by the `topic_match` condition (text, links,
bounty_url). -/
def ruleTopicBlob (env : Env) : List Char :=
  lowerL (String.intercalate " "
    [env.text, String.intercalate " " env.links, env.bounty_url]).toList

/-- Source `RulesEngine._match_condition`.  The trust manager is modelled by its
`score` function, the goal manager by its active goal titles. -/
def matchCondition (w : RWhen) (ev : REvent) (trust : Option (String → ℚ))
    (vals : Option Values.ValuesData) (goals : Option (List String)) : Bool :=
  let env := ev.env
  (match w.kind with
   | none => true
   | some ks => ks.contains env.kind) &&
  (match w.agent_id with
   | none => true
   | some ids => ids.contains env.agent_id) &&
  (match w.min_rtc with
   | none => true
   | some m => decide (m ≤ env.reward_rtc)) &&
  (match w.max_rtc with
   | none => true
   | some m => decide (env.reward_rtc ≤ m)) &&
  (match trust with
   | none => true
   | some tf =>
     if (w.min_trust.isSome || w.max_trust.isSome) && env.agent_id != "" then
       (match w.min_trust with
        | none => true
        | some m => decide (m ≤ tf env.agent_id)) &&
       (match w.max_trust with
        | none => true
        | some m => decide (tf env.agent_id ≤ m))
     else true) &&
  (match w.min_score with
   | none => true
   | some m => decide (m ≤ ev.score)) &&
  (match w.topic_match with
   | none => true
   | some ts => ts.any fun t => listContains (lowerL t.toList) (ruleTopicBlob env)) &&
  (match w.verified with
   | none => true
   | some none => true
   | some (some b) => decide (ev.verified = some b)) &&
  (match w.platform with
   | none => true
   | some p => ev.platform == p) &&
  (match w.task_state with
   | none => true
   | some s => env.state == s) &&
  (match vals, w.values_match with
   | some vd, some minc =>
     (match env.values with
      | none => true
      | some ov =>
        if ov.isEmpty then true
        else decide (minc ≤ Values.compatibility vd ov))
   | _, _ => true) &&
  (match goals, w.goal_active with
   | some gs, some b => if b then !gs.isEmpty else gs.isEmpty
   | _, _ => true) &&
  (match goals, w.goal_progress with
   | some gs, some kw =>
     gs.any fun t => listContains (lowerL kw.toList) (lowerL t.toList)
   | _, _ => true)

def cooldownKey (rule agentId : String) : String := rule ++ ":" ++ agentId

/-- Source `RulesEngine._is_cooled_down` over the in-memory cooldown table. -/
def isCooledDown (cds : List (String × ℚ)) (now : ℚ) (rule agentId : String) :
    Bool :=
  decide (now - ((lookupKey (cooldownKey rule agentId) cds).getD 0) < COOLDOWN_S)

/-- The user-rule loop of `RulesEngine.evaluate`: skip disabled rules,
non-matching rules and cooled-down rules, in configured order. -/
def rulesLoop (rules : List Rule) (cds : List (String × ℚ)) (now : ℚ)
    (ev : REvent) (trust : Option (String → ℚ)) (vals : Option Values.ValuesData)
    (goals : Option (List String)) : List RMatch :=
  rules.filterMap fun r =>
    if r.disabled then none
    else if !matchCondition r.whenCond ev trust vals goals then none
    else if isCooledDown cds now r.name ev.env.agent_id then none
    else some ⟨r.name, r.thenAct, none⟩

/-- Source `RulesEngine.evaluate`: boundary check first (`if violated:` is Python
truthiness, i.e. a non-empty string) — on violation a single synthetic
`_boundary_enforcement` log match is returned and processing stops. -/
def evaluate (rules : List Rule) (cds : List (String × ℚ)) (now : ℚ)
    (ev : REvent) (trust : Option (String → ℚ)) (vals : Option Values.ValuesData)
    (goals : Option (List String)) : List RMatch :=
  let violated : Option String :=
    match vals with
    | some vd => Values.check_boundaries vd ev.env
    | none => none
  match violated with
  | some v =>
    if v ≠ "" then
      [⟨"_boundary_enforcement",
        { action := "log", message := some ("Boundary violated: " ++ v) }, some v⟩]
    else rulesLoop rules cds now ev trust vals goals
  | none => rulesLoop rules cds now ev trust vals goals

/-- Rendering of an envelope value for `$variable` substitution; Python
`str` of the number (exact rationals here). -/
def ratStr (q : ℚ) : String := if q.den = 1 then toString q.num else toString q

/-- Source `RulesEngine._substitute`, replacements applied in source order. -/
def substitute (t : String) (env : Env) : String :=
  let reps : List (String × String) :=
    [("$from", env.fromId), ("$agent_id", env.agent_id), ("$kind", env.kind),
     ("$nonce", env.nonce), ("$reward_rtc", ratStr env.reward_rtc),
     ("$task_id", env.task_id), ("$text", env.text), ("$name", env.name)]
  reps.foldl (fun acc kv => acc.replace kv.1 kv.2) t

/-- The reply envelope built by the `reply` action. -/
structure ReplyEnv where
  kind : String
  toAgent : String
  text : String
  ts : Int
  task_id : Option String := none
deriving DecidableEq

/-- The result record of `RulesEngine.execute` (the side-effect-free
content; the `log` branch also appends to `rules_log.jsonl`). -/
structure ExecResult where
  action : String
  message : Option String := none
  envelope : Option ReplyEnv := none
  agent_id : Option String := none
  reason : Option String := none
  outcome : Option String := none
  nonce : Option String := none
  error : Option String := none
deriving DecidableEq

/-- Source `RulesEngine.execute`.  The `reply` target `env.get("agent_id",
env.get("from", ""))` is modelled through the absent-is-empty convention;
the raw data bag of `emit` is not carried. -/
def executeAction (a : RAction) (ev : REvent) (now : Int) : ExecResult :=
  let env := ev.env
  if a.action = "log" then
    { action := "log",
      message := some (substitute (a.message.getD "Rule fired") env) }
  else if a.action = "reply" then
    let reply : ReplyEnv :=
      { kind := a.kind.getD "hello",
        toAgent := if env.agent_id ≠ "" then env.agent_id else env.fromId,
        text := substitute (a.text.getD "") env, ts := now,
        task_id := a.task_id.map fun t => substitute t env }
    { action := "reply", envelope := some reply }
  else if a.action = "block" then
    { action := "block", agent_id := some env.agent_id,
      reason := some (substitute (a.reason.getD "auto-blocked by rule") env) }
  else if a.action = "rate" then
    { action := "rate", agent_id := some env.agent_id,
      outcome := some (a.outcome.getD "ok") }
  else if a.action = "mark_read" then
    { action := "mark_read", nonce := some env.nonce }
  else if a.action = "emit" then
    { action := "emit" }
  else { action := a.action, error := some "unknown_action" }

/-- Source `RulesEngine.process`: evaluate, then execute every match in order. -/
def process (rules : List Rule) (cds : List (String × ℚ)) (now : ℚ)
    (ev : REvent) (trust : Option (String → ℚ)) (vals : Option Values.ValuesData)
    (goals : Option (List String)) (ts : Int) : List ExecResult :=
  (evaluate rules cds now ev trust vals goals).map fun m =>
    executeAction m.action ev ts

end Rules

namespace Accord

/- ── accord.py: anti-sycophancy bonds ── -/
/-- One entry of an accord's `events` list. -/
structure AccordEvent where
  type : String := ""
  byAgent : String := ""
  fromAgent : String := ""
  severity : String := ""
  challenge : String := ""
  response : String := ""
  reason : String := ""
  ts : Int := 0
deriving DecidableEq

/-- One value of `accords.json`. -/
structure Accord where
  id : String := ""
  state : String := ""
  name : String := ""
  our_role : String := ""
  peer_agent_id : String := ""
  pushback_clause : String := ""
  history_hash : String := ""
  events : List AccordEvent := []
deriving DecidableEq

/-- Source `AccordManager._compute_history_hash`:
`SHA256(prev_hash ":" event ":" ts)` with a default previous hash of 64
zero characters. -/
def computeHistoryHash (a : Accord) (newEvent : String) (now : Int) : String :=
  let prev := if a.history_hash = "" then String.mk (List.replicate 64 '0')
    else a.history_hash
  sha256Hex (utf8 (prev ++ ":" ++ newEvent ++ ":" ++ toString now))

/-- The envelope returned by `build_pushback`. -/
structure PushbackEnv where
  kind : String
  action : String
  accord_id : String
  agent_id : String
  peer_agent_id : String
  challenge : String
  severity : String
  evidence : Option String := none
  ts : Int
deriving DecidableEq

/-- Source `AccordManager.build_pushback`: challenge the peer — only on an accord
whose state is exactly `active`; moves the accord to `challenged`, chains
the history hash and appends a `pushback` event.  Returns the envelope (or
`None`) together with the stored accords after the call. -/
def build_pushback (accords : List (String × Accord))
    (selfId accordId challenge evidence severity : String) (now : Int) :
    Option PushbackEnv × List (String × Accord) :=
  match lookupKey accordId accords with
  | none => (none, accords)
  | some accord =>
    if accord.state ≠ "active" then (none, accords)
    else
      let pb : PushbackEnv :=
        { kind := "accord", action := "pushback", accord_id := accordId,
          agent_id := selfId, peer_agent_id := accord.peer_agent_id,
          challenge := challenge, severity := severity,
          evidence := if evidence ≠ "" then some evidence else none, ts := now }
      let accord' : Accord :=
        { accord with
          state := "challenged",
          history_hash := computeHistoryHash accord
            ("pushback:" ++ severity ++ ":" ++ challenge.take 100) now,
          events := accord.events ++
            [{ type := "pushback", byAgent := selfId, severity := severity,
               challenge := challenge.take 200, ts := now }] }
      (some pb, updateKey accordId accord' accords)

/-- An apostrophe, kept out of string literals. -/
def apos : String := String.singleton (Char.ofNat 39)

/-- Source `AccordManager.PUSHBACK_DOMAINS`, the canonical keyword table. -/
def PUSHBACK_DOMAINS : List (String × List String) :=
  [("self_harm",
    ["kill myself", "suicide", "self-harm", "end it all", "hurt myself",
     "not worth living"]),
   ("delusion_reinforcement",
    ["i am god", "i can fly", "nobody can stop me",
     "the government is after me", "they" ++ apos ++ "re all against me"]),
   ("sycophantic_agreement",
    ["you agree right", "tell me i" ++ apos ++ "m right", "just say yes",
     "don" ++ apos ++ "t argue"]),
   ("factual_error",
    ["the earth is flat", "vaccines cause autism", "climate change is fake"])]

/-- Source `AccordManager.find_accord_with`: accords whose `peer_agent_id` is the
counterparty, or with an event `from`/`by` the counterparty; prefer the
first in state active or challenged, else the first match. -/
def find_accord_with (accords : List (String × Accord)) (cid : String) :
    Option Accord :=
  let hits := accords.filterMap fun kv =>
    if kv.2.peer_agent_id = cid then some { kv.2 with id := kv.1 }
    else if kv.2.events.any fun e => e.fromAgent == cid || e.byAgent == cid then
      some { kv.2 with id := kv.1 }
    else none
  match hits.find? fun a => a.state == "active" || a.state == "challenged" with
  | some a => some a
  | none => hits.head?

/-- The recommendation returned by `check_pushback`. -/
structure PushbackRec where
  accord_id : String
  domain : String
  matched_phrase : String
  severity : String
  pushback_clause : String
deriving DecidableEq

/-- The domain scan of `check_pushback`: first phrase of the first domain
found in the lowercased text; severity `breach` for `self_harm`, else
`warning`. -/
def scanDomains (tl : List Char) (accord : Accord) :
    List (String × List String) → Option PushbackRec
  | [] => none
  | (domain, phrases) :: rest =>
    match phrases.find? fun p => listContains p.toList tl with
    | some phrase =>
      some { accord_id := accord.id, domain := domain,
             matched_phrase := phrase,
             severity := if domain = "self_harm" then "breach" else "warning",
             pushback_clause := accord.pushback_clause }
    | none => scanDomains tl accord rest

/-- Source `AccordManager.check_pushback`. -/
def check_pushback (accords : List (String × Accord))
    (counterpartyId actionText : String) : Option PushbackRec :=
  match find_accord_with accords counterpartyId with
  | none => none
  | some accord =>
    if accord.state = "active" ∨ accord.state = "challenged" then
      scanDomains (lowerL actionText.toList) accord PUSHBACK_DOMAINS
    else none

end Accord

namespace Contracts

/- ── contracts.py: property contracts with escrow ── -/
/-- contracts.py `VALID_TRANSITIONS`, read with `.get(current, [])`. -/
def VALID_TRANSITIONS (s : String) : List String :=
  if s = "listed" then ["offered", "terminated"]
  else if s = "offered" then ["accepted", "listed", "terminated"]
  else if s = "accepted" then ["active", "terminated"]
  else if s = "active" then ["renewed", "expired", "breached", "terminated", "settled"]
  else if s = "renewed" then ["expired", "breached", "terminated", "settled"]
  else if s = "expired" then ["settled"]
  else if s = "breached" then ["settled", "terminated"]
  else if s = "terminated" then ["settled"]
  else []

/-- One entry of a contract's `events` list. -/
structure CEvent where
  ts : Int
  type : String
  byAgent : String := ""
  reason : Option String := none
  evidence : Option String := none
deriving DecidableEq

/-- The JSON document of an event as `json.dumps` sees it (the serializer
sorts keys, so assembly order is irrelevant). -/
def ceventJson (e : CEvent) : Json :=
  .obj ([("ts", .int e.ts), ("type", .str e.type), ("by", .str e.byAgent)] ++
    (match e.reason with | some r => [("reason", .str r)] | none => []) ++
    (match e.evidence with | some v => [("evidence", .str v)] | none => []))

/-- contracts.py `_history_hash`: SHA-256 of `json.dumps(events,
sort_keys=True)` (default separators), truncated to 16 hex characters. -/
def historyHash (events : List CEvent) : String :=
  (sha256Hex (utf8 (jser ", " ": " (.arr (events.map ceventJson))))).take 16

/-- One value of `contracts.json` (fields that no embedded operation
touches, such as the lease-to-own block, are omitted). -/
structure Contract where
  id : String := ""
  state : String := ""
  ctype : String := ""
  agent_id : String := ""
  seller_id : String := ""
  buyer_id : String := ""
  price_rtc : ℚ := 0
  penalty_pct : ℚ := 10
  duration_days : Int := 0
  expires_at : Int := 0
  settled_at : Int := 0
  history_hash : String := ""
  events : List CEvent := []
deriving DecidableEq

/-- One value of `escrow.json`. -/
structure Escrow where
  contract_id : String := ""
  escrow_address : String := ""
  funded_by : String := ""
  amount_rtc : ℚ := 0
  funded_at : Int := 0
  tx_ref : String := ""
  released : Bool := false
  released_to : String := ""
  released_at : Int := 0
  penalty_deducted : ℚ := 0
deriving DecidableEq

/-- The manager's persistent state: `contracts.json` and `escrow.json`. -/
structure CMState where
  contracts : List (String × Contract) := []
  escrow : List (String × Escrow) := []
deriving DecidableEq

/-- Source `ContractManager._transition`: validate against `VALID_TRANSITIONS`,
append the event, rechain the history hash; `{error: ...}` results are
modelled as `Except.error`. -/
def transition (st : CMState) (cid newState byAgent reason : String)
    (now : Int) : Except String Unit × CMState :=
  match lookupKey cid st.contracts with
  | none => (.error ("Contract " ++ cid ++ " not found"), st)
  | some ctr =>
    if newState ∈ VALID_TRANSITIONS ctr.state then
      let ev : CEvent := { ts := now, type := newState, byAgent := byAgent,
                           reason := if reason ≠ "" then some reason else none }
      let ctr' : Contract :=
        { ctr with
          state := newState,
          events := ctr.events ++ [ev],
          history_hash := historyHash (ctr.events ++ [ev]) }
      (.ok (), { st with contracts := updateKey cid ctr' st.contracts })
    else
      (.error ("Invalid transition: " ++ ctr.state ++ " -> " ++ newState), st)

/-- The record returned by `release_escrow`. -/
structure ReleaseInfo where
  released_to : String
  amount_rtc : ℚ
  penalty_deducted : ℚ
deriving DecidableEq

/-- Source `ContractManager.release_escrow`: deduct
`amount · penalty_pct / 100` when a `breached` event exists anywhere in the
contract's history, then release the remainder. -/
def release_escrow (st : CMState) (cid toAddr : String) (now : Int) :
    Except String ReleaseInfo × CMState :=
  match lookupKey cid st.escrow with
  | none => (.error ("No escrow for contract " ++ cid), st)
  | some esc =>
    if esc.released then (.error "Escrow already released", st)
    else
      let penalty : ℚ :=
        match lookupKey cid st.contracts with
        | some ctr =>
          if ctr.events.any (fun e => e.type == "breached") then
            esc.amount_rtc * (ctr.penalty_pct / 100)
          else 0
        | none => 0
      let esc' : Escrow :=
        { esc with
          released := true,
          released_to := toAddr,
          released_at := now,
          penalty_deducted := penalty }
      (.ok { released_to := toAddr, amount_rtc := esc.amount_rtc - penalty,
             penalty_deducted := penalty },
       { st with escrow := updateKey cid esc' st.escrow })

/-- Source `ContractManager.settle`: transition to `settled`, stamp `settled_at`,
then auto-release any funded, unreleased escrow to the seller.  The
`escrow_release` part of the Python result is the optional `ReleaseInfo`. -/
def settle (st : CMState) (cid : String) (now : Int) :
    Except String (Option ReleaseInfo) × CMState :=
  match lookupKey cid st.contracts with
  | none => (.error ("Contract " ++ cid ++ " not found"), st)
  | some _ =>
    match transition st cid "settled" "" "Final settlement" now with
    | (.error e, st1) => (.error e, st1)
    | (.ok _, st1) =>
      let st2 : CMState :=
        match lookupKey cid st1.contracts with
        | some ctr =>
          { st1 with contracts :=
              updateKey cid { ctr with settled_at := now } st1.contracts }
        | none => st1
      match lookupKey cid st2.escrow with
      | some esc =>
        if esc.released then (.ok none, st2)
        else
          match lookupKey cid st2.contracts with
          | some ctr =>
            match release_escrow st2 cid ctr.seller_id now with
            | (.ok info, st3) => (.ok (some info), st3)
            | (.error _, st3) => (.ok none, st3)
          | none => (.ok none, st2)
      | none => (.ok none, st2)

/-- The penalty the claim describes: `escrow_amount · penalty_pct / 100`
when a breach event exists in the history, else 0. -/
def penaltyOf (ctr : Contract) (esc : Escrow) : ℚ :=
  if ctr.events.any (fun e => e.type == "breached") then
    esc.amount_rtc * (ctr.penalty_pct / 100)
  else 0

end Contracts

namespace Anchor

/- ── anchor.py `_submit`: ledger submission with duplicate handling ── -/
/-- The result dict of `client.anchor_submit` (or the synthetic duplicate
result built by `_submit`). -/
structure SubmitResult where
  ok : Bool := true
  anchor_id : Option String := none
  epoch : Option Int := none
  error : Option String := none
  commitment : Option String := none
deriving DecidableEq

/-- One line of `anchors.jsonl`. -/
structure LogEntry where
  ts : Int
  commitment : String
  data_type : String
  status : String
  anchor_id : Option String := none
  error : Option String := none
deriving DecidableEq

/-- What the ledger client call did: returned a result, or raised with a
message. -/
inductive ClientOutcome where
  | ok (result : SubmitResult)
  | err (msg : String)
deriving DecidableEq

/-- Source `AnchorManager._submit` after the client call: log `ok` on success;
on an exception whose text contains `commitment_exists`, log `duplicate`
and return `{ok: false, error: "commitment_exists", commitment}` without
raising; on any other exception log `error` and re-raise. -/
def submit (clientResult : ClientOutcome) (commitment data_type : String)
    (log : List LogEntry) (now : Int) :
    Except String SubmitResult × List LogEntry :=
  match clientResult with
  | .ok result =>
    (.ok result,
     log ++ [{ ts := now, commitment := commitment, data_type := data_type,
               status := "ok", anchor_id := result.anchor_id }])
  | .err e =>
    if listContains ("commitment_exists".toList) e.toList then
      (.ok { ok := false, error := some "commitment_exists",
             commitment := some commitment },
       log ++ [{ ts := now, commitment := commitment, data_type := data_type,
                 status := "duplicate" }])
    else
      (.error e,
       log ++ [{ ts := now, commitment := commitment, data_type := data_type,
                 status := "error", error := some e }])

end Anchor

end BeaconSkill

/-! ### Theorems -/

namespace BeaconSkill

/- ── Association-list lemmas for the canonicalization claim ── -/
theorem mem_of_lookupKey {α : Type} {k : String} {v : α} {l : List (String × α)}
    (h : lookupKey k l = some v) : (k, v) ∈ l := by
  induction l with
  | nil => simp [lookupKey] at h
  | cons p t ih =>
    obtain ⟨k', v'⟩ := p
    by_cases hk : k = k'
    · subst hk
      simp [lookupKey] at h
      simp [h]
    · simp only [lookupKey, hk, if_false] at h
      exact List.mem_cons_of_mem _ (ih h)

theorem lookupKey_of_mem {α : Type} {l : List (String × α)}
    (hn : (l.map Prod.fst).Nodup) {k : String} {v : α}
    (h : (k, v) ∈ l) : lookupKey k l = some v := by
  induction l with
  | nil => simp at h
  | cons p t ih =>
    obtain ⟨k', v'⟩ := p
    simp only [List.map_cons, List.nodup_cons] at hn
    rcases List.mem_cons.mp h with heq | hmem
    · cases heq
      simp [lookupKey]
    · by_cases hk : k = k'
      · subst hk
        exact absurd (List.mem_map_of_mem Prod.fst hmem) hn.1
      · simp only [lookupKey, hk, if_false]
        exact ih hn.2 hmem

theorem perm_of_lookupKey_eq {α : Type} {l1 l2 : List (String × α)}
    (n1 : (l1.map Prod.fst).Nodup) (n2 : (l2.map Prod.fst).Nodup)
    (h : ∀ k, lookupKey k l1 = lookupKey k l2) : l1.Perm l2 := by
  refine (List.perm_ext_iff_of_nodup (List.Nodup.of_map _ n1)
    (List.Nodup.of_map _ n2)).mpr ?_
  rintro ⟨k, v⟩
  constructor
  · intro hm
    exact mem_of_lookupKey ((h k).symm.trans (lookupKey_of_mem n1 hm))
  · intro hm
    exact mem_of_lookupKey ((h k).trans (lookupKey_of_mem n2 hm))

theorem lookupKey_updateKey_of_some {α : Type} {k : String} {v w : α}
    {l : List (String × α)} (h : lookupKey k l = some w) :
    lookupKey k (updateKey k v l) = some v := by
  induction l with
  | nil => simp [lookupKey] at h
  | cons p t ih =>
    obtain ⟨k', v'⟩ := p
    by_cases hk : k = k'
    · subst hk
      simp only [updateKey, List.map_cons]
      simp [lookupKey]
    · simp only [lookupKey, hk, if_false] at h
      simp only [updateKey, List.map_cons]
      rw [if_neg (fun hkk => hk hkk.symm)]
      simp only [lookupKey, hk, if_false]
      exact ih h

theorem lookupKey_updateKey {α : Type} (k : String) (v : α) :
    ∀ l : List (String × α), lookupKey k (updateKey k v l) =
      if (lookupKey k l).isSome then some v else none
  | [] => by simp [lookupKey, updateKey]
  | (k', v') :: t => by
    by_cases hk : k = k'
    · subst hk
      simp only [updateKey, List.map_cons]
      simp [lookupKey]
    · simp only [updateKey, List.map_cons]
      rw [if_neg (fun hkk => hk hkk.symm)]
      simp only [lookupKey, hk, if_false]
      exact lookupKey_updateKey k v t

theorem updateKey_updateKey {α : Type} (k : String) (v1 v2 : α)
    (l : List (String × α)) :
    updateKey k v2 (updateKey k v1 l) = updateKey k v2 l := by
  simp only [updateKey, List.map_map]
  apply List.map_congr_left
  intro kv _
  by_cases hk : kv.1 = k
  · simp [Function.comp, hk]
  · simp [Function.comp, hk]

theorem sorted_entryLt_of_nodup {l : List (String × String)}
    (hs : List.Sorted entryLe l) (hn : (l.map Prod.fst).Nodup) :
    List.Sorted entryLt l := by
  have hne : List.Pairwise (fun a b : String × String => a.1 ≠ b.1) l :=
    List.pairwise_map.mp hn
  exact (hs.and hne).imp fun hab => lt_of_le_of_ne hab.1 hab.2

theorem sortEntries_eq {l1 l2 : List (String × String)}
    (n1 : (l1.map Prod.fst).Nodup) (n2 : (l2.map Prod.fst).Nodup)
    (h : ∀ k, lookupKey k l1 = lookupKey k l2) :
    sortEntries l1 = sortEntries l2 := by
  have hperm : l1.Perm l2 := perm_of_lookupKey_eq n1 n2 h
  have hp1 := List.perm_insertionSort entryLe l1
  have hp2 := List.perm_insertionSort entryLe l2
  have hn1 : ((sortEntries l1).map Prod.fst).Nodup :=
    ((hp1.map Prod.fst).nodup_iff).mpr n1
  have hn2 : ((sortEntries l2).map Prod.fst).Nodup :=
    ((hp2.map Prod.fst).nodup_iff).mpr n2
  exact List.eq_of_perm_of_sorted (hp1.trans (hperm.trans hp2.symm))
    (sorted_entryLt_of_nodup (List.sorted_insertionSort entryLe l1) hn1)
    (sorted_entryLt_of_nodup (List.sorted_insertionSort entryLe l2) hn2)

theorem jserKV_map_fst (isep ksep : String) :
    ∀ d : List (String × Json), (jserKV isep ksep d).map Prod.fst = d.map Prod.fst
  | [] => rfl
  | (k, v) :: t => by simp [jserKV, jserKV_map_fst isep ksep t]

theorem lookupKey_jserKV (isep ksep k : String) :
    ∀ d : List (String × Json),
      lookupKey k (jserKV isep ksep d) = (lookupKey k d).map (jser isep ksep)
  | [] => rfl
  | (k', v) :: t => by
    by_cases hk : k = k' <;>
      simp [jserKV, lookupKey, hk, lookupKey_jserKV isep ksep k t]

/-- C7: `commitment_hash` is key-order-invariant on dictionaries: two dicts
mapping the same keys to the same values hash identically; a dict is hashed
through its canonical JSON (sorted keys, minimal separators), a string
through its UTF-8 bytes, and bytes raw, always with a SHA-256 hex digest. -/
theorem commitment_hash_canonicalization (d1 d2 : List (String × Json))
    (n1 : (d1.map Prod.fst).Nodup) (n2 : (d2.map Prod.fst).Nodup)
    (h : ∀ k, lookupKey k d1 = lookupKey k d2) :
    commitment_hash (.dict d1) = commitment_hash (.dict d2) ∧
    (∀ d, commitment_hash (.dict d) = sha256Hex (canonicalJson d)) ∧
    (∀ s, commitment_hash (.str s) = sha256Hex (utf8 s)) ∧
    (∀ b, commitment_hash (.bytes b) = sha256Hex b) := by
  refine ⟨?_, fun _ => rfl, fun _ => rfl, fun _ => rfl⟩
  have hk1 : ((jserKV "," ":" d1).map Prod.fst).Nodup := by
    rw [jserKV_map_fst]; exact n1
  have hk2 : ((jserKV "," ":" d2).map Prod.fst).Nodup := by
    rw [jserKV_map_fst]; exact n2
  have hl : ∀ k, lookupKey k (jserKV "," ":" d1) = lookupKey k (jserKV "," ":" d2) := by
    intro k
    rw [lookupKey_jserKV, lookupKey_jserKV, h k]
  have hsort := sortEntries_eq hk1 hk2 hl
  show sha256Hex (canonicalJson d1) = sha256Hex (canonicalJson d2)
  unfold canonicalJson
  have hser : jser "," ":" (.obj d1) = jser "," ":" (.obj d2) := by
    simp only [jser, renderEntries, hsort]
  rw [hser]

/-- Witness for C7 at a concrete pair of dicts differing only in key order. -/
theorem commitment_hash_canonicalization_witness :
    commitment_hash (.dict [("a", .int 1), ("b", .str "x")]) =
      commitment_hash (.dict [("b", .str "x"), ("a", .int 1)]) :=
  (commitment_hash_canonicalization
    [("a", .int 1), ("b", .str "x")] [("b", .str "x"), ("a", .int 1)]
    (by decide) (by decide)
    (by
      intro k
      by_cases h1 : k = "a"
      · subst h1; rfl
      · by_cases h2 : k = "b"
        · subst h2; rfl
        · simp [lookupKey, h1, h2])).1

namespace Tasks

theorem buildTaskState_append_matching (log : List TaskEvent) (tid ns : String)
    (now : Int) : buildTaskState (log ++ [⟨tid, ns, now⟩]) tid = some ns := by
  simp [buildTaskState, List.filter_append, List.foldl_append]

end Tasks

/-- C1: for an existing task, `TaskManager.transition` appends a transition
event exactly when the target state is allowed from the folded current
state; otherwise it raises and appends nothing, leaving the folded state
unchanged. -/
theorem task_transition_allowed_iff (log : List Tasks.TaskEvent)
    (tid ns : String) (now : Int) (cur : String)
    (h : Tasks.buildTaskState log tid = some cur) :
    (ns ∈ Tasks.TRANSITIONS cur →
      Tasks.transition log tid ns now = (.ok ⟨tid, ns, now⟩, log ++ [⟨tid, ns, now⟩]) ∧
      Tasks.buildTaskState (Tasks.transition log tid ns now).2 tid = some ns) ∧
    (ns ∉ Tasks.TRANSITIONS cur →
      Tasks.transition log tid ns now =
        (.error ("Invalid transition: " ++ cur ++ " -> " ++ ns), log) ∧
      Tasks.buildTaskState (Tasks.transition log tid ns now).2 tid = some cur) := by
  constructor
  · intro hmem
    have hred : Tasks.transition log tid ns now =
        (.ok ⟨tid, ns, now⟩, log ++ [⟨tid, ns, now⟩]) := by
      simp [Tasks.transition, h, hmem]
    rw [hred]
    exact ⟨rfl, Tasks.buildTaskState_append_matching log tid ns now⟩
  · intro hmem
    have hred : Tasks.transition log tid ns now =
        (.error ("Invalid transition: " ++ cur ++ " -> " ++ ns), log) := by
      simp [Tasks.transition, h, hmem]
    rw [hred]
    exact ⟨rfl, h⟩

/-- Witness for C1: a freshly opened task accepts `offered` and rejects
`paid`. -/
theorem task_transition_allowed_iff_witness :
    (Tasks.transition [⟨"t1", "open", 0⟩] "t1" "offered" 5 =
      (.ok ⟨"t1", "offered", 5⟩, [⟨"t1", "open", 0⟩, ⟨"t1", "offered", 5⟩])) ∧
    (Tasks.transition [⟨"t1", "open", 0⟩] "t1" "paid" 5 =
      (.error ("Invalid transition: open -> paid"), [⟨"t1", "open", 0⟩])) :=
  ⟨((task_transition_allowed_iff [⟨"t1", "open", 0⟩] "t1" "offered" 5 "open"
      (by decide)).1 (by decide)).1,
   ((task_transition_allowed_iff [⟨"t1", "open", 0⟩] "t1" "paid" 5 "open"
      (by decide)).2 (by decide)).1⟩

namespace Outbox

theorem pending_mem_pred {idx : List OutboxItem} {limit : Nat} {x : OutboxItem}
    (hx : x ∈ pending idx limit) :
    x.status = "pending" ∧ x.attempts < MAX_RETRY_ATTEMPTS := by
  have hx1 : x ∈ List.insertionSort createdLe (idx.filter fun it =>
      it.status == "pending" && decide (it.attempts < MAX_RETRY_ATTEMPTS)) :=
    List.mem_of_mem_take hx
  have hx2 := (List.perm_insertionSort createdLe _).mem_iff.mp hx1
  have := (List.mem_filter.mp hx2).2
  simpa using this

end Outbox

/-- Counterexample to C3 as stated: `pending()` truncates to its `limit`
argument (default 10), so with eleven eligible items one item has status
`pending` and `attempts < 3` yet is not returned. -/
theorem outbox_pending_limit_counterexample :
    (⟨"x10", "", "", "", "pending", "", 10, 0, 0, "", ""⟩ : Outbox.OutboxItem) ∈
      ((List.range 11).map fun i =>
        (⟨"x" ++ toString i, "", "", "", "pending", "", (i : Int), 0, 0, "", ""⟩ :
          Outbox.OutboxItem)) ∧
    (⟨"x10", "", "", "", "pending", "", 10, 0, 0, "", ""⟩ : Outbox.OutboxItem).status
        = "pending" ∧
    (⟨"x10", "", "", "", "pending", "", 10, 0, 0, "", ""⟩ : Outbox.OutboxItem).attempts
        < Outbox.MAX_RETRY_ATTEMPTS ∧
    (⟨"x10", "", "", "", "pending", "", 10, 0, 0, "", ""⟩ : Outbox.OutboxItem) ∉
      Outbox.pending
        ((List.range 11).map fun i =>
          (⟨"x" ++ toString i, "", "", "", "pending", "", (i : Int), 0, 0, "", ""⟩ :
            Outbox.OutboxItem)) 10 := by
  decide

/-- C3 (amended): `mark_retry` increments the attempts counter, flips the
item to `failed` with `error = "max_retries_exceeded"` exactly when the new
count reaches `MAX_RETRY = 3`; `pending(limit)` returns precisely the
items with status `pending` and `attempts < 3`, truncated to the earliest
`limit` of them by `created_at`: every eligible item is returned when at
most `limit` are eligible, the output is sorted ascending by `created_at`,
every returned item's `created_at` is at most that of every eligible item
left out, and the output length is `min limit (number eligible)`; a failed
item is never returned again. -/
theorem outbox_retry_and_pending (idx : List Outbox.OutboxItem)
    (it : Outbox.OutboxItem) (now : Int) (limit : Nat) (hmem : it ∈ idx) :
    ((it.attempts + 1 ≥ 3 →
        ({ it with attempts := it.attempts + 1, updated_at := now,
                   status := "failed", error := "max_retries_exceeded" } :
          Outbox.OutboxItem) ∈ Outbox.mark_retry idx it.action_id now) ∧
      (it.attempts + 1 < 3 →
        ({ it with attempts := it.attempts + 1, updated_at := now } :
          Outbox.OutboxItem) ∈ Outbox.mark_retry idx it.action_id now)) ∧
    (∀ x ∈ Outbox.pending idx limit, x.status = "pending" ∧ x.attempts < 3) ∧
    ((idx.filter fun y =>
        y.status == "pending" && decide (y.attempts < Outbox.MAX_RETRY_ATTEMPTS)).length
          ≤ limit →
      it.status = "pending" → it.attempts < 3 → it ∈ Outbox.pending idx limit) ∧
    (it.status = "failed" → it ∉ Outbox.pending idx limit) ∧
    List.Pairwise Outbox.createdLe (Outbox.pending idx limit) ∧
    (∀ x ∈ Outbox.pending idx limit, ∀ y ∈ idx, y.status = "pending" →
      y.attempts < 3 → y ∉ Outbox.pending idx limit →
      x.created_at ≤ y.created_at) ∧
    (Outbox.pending idx limit).length =
      min limit ((idx.filter fun y =>
        y.status == "pending" &&
          decide (y.attempts < Outbox.MAX_RETRY_ATTEMPTS)).length) := by
  refine ⟨⟨?_, ?_⟩, ?_, ?_, ?_, ?_, ?_, ?_⟩
  · intro hge
    have hmap := List.mem_map_of_mem (fun x =>
      if x.action_id = it.action_id then
        if x.attempts + 1 ≥ Outbox.MAX_RETRY_ATTEMPTS then
          { x with attempts := x.attempts + 1, updated_at := now,
                   status := "failed", error := "max_retries_exceeded" }
        else { x with attempts := x.attempts + 1, updated_at := now }
      else x) hmem
    rw [Outbox.mark_retry]
    have h2 : 2 ≤ it.attempts := by omega
    simpa [Outbox.MAX_RETRY_ATTEMPTS, h2] using hmap
  · intro hlt
    have hmap := List.mem_map_of_mem (fun x =>
      if x.action_id = it.action_id then
        if x.attempts + 1 ≥ Outbox.MAX_RETRY_ATTEMPTS then
          { x with attempts := x.attempts + 1, updated_at := now,
                   status := "failed", error := "max_retries_exceeded" }
        else { x with attempts := x.attempts + 1, updated_at := now }
      else x) hmem
    rw [Outbox.mark_retry]
    have h2 : ¬ 2 ≤ it.attempts := by omega
    simpa [Outbox.MAX_RETRY_ATTEMPTS, h2] using hmap
  · intro x hx
    have := Outbox.pending_mem_pred hx
    simpa [Outbox.MAX_RETRY_ATTEMPTS] using this
  · intro hlen hst hat
    rw [Outbox.pending]
    have hfil : it ∈ idx.filter fun y =>
        y.status == "pending" && decide (y.attempts < Outbox.MAX_RETRY_ATTEMPTS) := by
      refine List.mem_filter.mpr ⟨hmem, ?_⟩
      simp [hst, Outbox.MAX_RETRY_ATTEMPTS, hat]
    have hsorted := (List.perm_insertionSort Outbox.createdLe _).mem_iff.mpr hfil
    have hall : (List.insertionSort Outbox.createdLe (idx.filter fun y =>
        y.status == "pending" && decide (y.attempts < Outbox.MAX_RETRY_ATTEMPTS))).length
          ≤ limit := by
      rwa [List.length_insertionSort]
    rw [List.take_of_length_le hall]
    exact hsorted
  · intro hst hx
    have := (Outbox.pending_mem_pred hx).1
    rw [hst] at this
    exact absurd this (by decide)
  · simp only [Outbox.pending]
    exact List.Pairwise.sublist (List.take_sublist _ _)
      (List.sorted_insertionSort Outbox.createdLe _)
  · intro x hx y hy hst hat hnot
    simp only [Outbox.pending] at hx hnot
    have hyfil : y ∈ idx.filter fun z =>
        z.status == "pending" && decide (z.attempts < Outbox.MAX_RETRY_ATTEMPTS) := by
      refine List.mem_filter.mpr ⟨hy, ?_⟩
      simp [hst, Outbox.MAX_RETRY_ATTEMPTS, hat]
    set l := List.insertionSort Outbox.createdLe (idx.filter fun z =>
      z.status == "pending" && decide (z.attempts < Outbox.MAX_RETRY_ATTEMPTS)) with hl
    have hyl : y ∈ l := (List.perm_insertionSort Outbox.createdLe _).mem_iff.mpr hyfil
    have hyd : y ∈ l.drop limit := by
      have hsplit : l.take limit ++ l.drop limit = l := List.take_append_drop limit l
      have hmem2 : y ∈ l.take limit ++ l.drop limit := by rw [hsplit]; exact hyl
      rcases List.mem_append.mp hmem2 with h | h
      · exact absurd h hnot
      · exact h
    have hsorted : List.Pairwise Outbox.createdLe l :=
      List.sorted_insertionSort Outbox.createdLe _
    have hsplit2 : List.Pairwise Outbox.createdLe (l.take limit ++ l.drop limit) := by
      rw [List.take_append_drop]; exact hsorted
    exact (List.pairwise_append.mp hsplit2).2.2 x hx y hyd
  · simp only [Outbox.pending]
    rw [List.length_take, List.length_insertionSort]

/-- Witness for C3: a pending item with two prior attempts fails on its
third retry; a fresh pending item is returned by `pending`. -/
theorem outbox_retry_and_pending_witness :
    (⟨"a1", "", "", "", "failed", "", 0, 7, 3, "max_retries_exceeded", ""⟩ :
        Outbox.OutboxItem) ∈
      Outbox.mark_retry [⟨"a1", "", "", "", "pending", "", 0, 0, 2, "", ""⟩] "a1" 7 ∧
    (⟨"a1", "", "", "", "pending", "", 0, 0, 2, "", ""⟩ : Outbox.OutboxItem) ∈
      Outbox.pending [⟨"a1", "", "", "", "pending", "", 0, 0, 2, "", ""⟩] 10 :=
  ⟨(outbox_retry_and_pending [⟨"a1", "", "", "", "pending", "", 0, 0, 2, "", ""⟩]
      ⟨"a1", "", "", "", "pending", "", 0, 0, 2, "", ""⟩ 7 10 (by decide)).1.1
      (by decide),
   (outbox_retry_and_pending [⟨"a1", "", "", "", "pending", "", 0, 0, 2, "", ""⟩]
      ⟨"a1", "", "", "", "pending", "", 0, 0, 2, "", ""⟩ 7 10 (by decide)).2.2.1
      (by decide) (by decide) (by decide)⟩

theorem roundHalfEven_intCast (n : ℤ) : roundHalfEven (n : ℚ) = n := by
  simp [roundHalfEven]

theorem roundHalfEven_le_of_le {q : ℚ} {n : ℤ} (h : q ≤ (n : ℚ)) :
    roundHalfEven q ≤ n := by
  rw [roundHalfEven]
  have hf : Int.floor q ≤ n := by
    have := Int.floor_le_floor h
    rwa [Int.floor_intCast] at this
  split
  · exact hf
  · rename_i hr
    have hpos : (0 : ℚ) < q - Int.floor q := by
      have hhalf : (0 : ℚ) < 1 / 2 := by norm_num
      linarith [not_lt.mp hr]
    have hlt : (Int.floor q : ℚ) < (n : ℚ) := by linarith
    have hfn : Int.floor q < n := by exact_mod_cast hlt
    split
    · omega
    · split <;> omega

theorem roundHalfEven_ge_of_ge {q : ℚ} {n : ℤ} (h : (n : ℚ) ≤ q) :
    n ≤ roundHalfEven q := by
  rw [roundHalfEven]
  have hf : n ≤ Int.floor q := by
    rw [Int.le_floor]
    exact h
  split
  · exact hf
  · split
    · omega
    · split <;> omega

/-- The rounding `roundScaled` stays inside `[-1, 1]` on arguments inside `[-1, 1]`. -/
theorem roundScaled_mem_unit {q : ℚ} {s : Nat} (hs : 0 < s)
    (h1 : -1 ≤ q) (h2 : q ≤ 1) :
    -1 ≤ roundScaled s q ∧ roundScaled s q ≤ 1 := by
  have hsq : (0 : ℚ) < s := by exact_mod_cast hs
  have hub : q * s ≤ ((s : ℤ) : ℚ) := by
    push_cast
    nlinarith
  have hlb : ((-(s : ℤ) : ℤ) : ℚ) ≤ q * s := by
    push_cast
    nlinarith
  have h3 := roundHalfEven_le_of_le hub
  have h4 := roundHalfEven_ge_of_ge hlb
  rw [roundScaled]
  constructor
  · rw [le_div_iff₀ hsq]
    have h4' : (-(s : ℚ)) ≤ (roundHalfEven (q * s) : ℚ) := by exact_mod_cast h4
    linarith
  · rw [div_le_iff₀ hsq]
    have h3' : (roundHalfEven (q * s) : ℚ) ≤ (s : ℚ) := by exact_mod_cast h3
    linarith

/-- The rounding `roundScaled` fixes integers. -/
theorem roundScaled_intCast (s : Nat) (hs : 0 < s) (n : ℤ) :
    roundScaled s ((n : ℚ)) = n := by
  have hsq : (0 : ℚ) < s := by exact_mod_cast hs
  have : ((n : ℚ)) * s = ((n * s : ℤ) : ℚ) := by push_cast; ring
  rw [roundScaled, this, roundHalfEven_intCast]
  push_cast
  field_simp

namespace Trust

theorem foldl_step_spec (cutoff : ℚ) (agentId : String) :
    ∀ (ixs : List Interaction) (acc : Acc),
      ixs.foldl (step cutoff agentId) acc =
        { positive := acc.positive + posW ixs agentId cutoff,
          negative := acc.negative + negW ixs agentId cutoff,
          total := acc.total + (relevant ixs agentId).length,
          rtcVolume := acc.rtcVolume + ((relevant ixs agentId).map
            fun ix => |ix.rtc|).sum }
  | [], acc => by simp [posW, negW, relevant]
  | ix :: t, acc => by
    rw [List.foldl_cons, foldl_step_spec cutoff agentId t]
    by_cases ha : ix.agent_id = agentId
    · by_cases hp : ix.outcome ∈ positiveOutcomes
      · simp [step, ha, hp, posW, negW, relevant, weightOf, RECENCY_WEIGHT,
              List.filter_cons, add_assoc, add_comm, add_left_comm]
      · by_cases hn : ix.outcome ∈ negativeOutcomes
        · simp [step, ha, hp, hn, posW, negW, relevant, weightOf, RECENCY_WEIGHT,
                List.filter_cons, add_assoc, add_comm, add_left_comm]
        · simp [step, ha, hp, hn, posW, negW, relevant, weightOf, RECENCY_WEIGHT,
                List.filter_cons, add_assoc, add_comm, add_left_comm]
    · simp [step, ha, posW, negW, relevant, List.filter_cons]

theorem sum_map_all_one {α : Type} {f : α → ℚ} :
    ∀ {l : List α}, (∀ x ∈ l, f x = 1) → (l.map f).sum = l.length
  | [], _ => by simp
  | x :: t, h => by
    simp only [List.map_cons, List.sum_cons, List.length_cons]
    rw [h x (List.mem_cons_self x t),
      sum_map_all_one fun y hy => h y (List.mem_cons_of_mem x hy)]
    push_cast
    ring

theorem half_length_le_sum_map {α : Type} {f : α → ℚ} :
    ∀ {l : List α}, (∀ x ∈ l, 1 / 2 ≤ f x) → (l.length : ℚ) / 2 ≤ (l.map f).sum
  | [], _ => by simp
  | x :: t, h => by
    simp only [List.map_cons, List.sum_cons, List.length_cons]
    have h1 := h x (List.mem_cons_self x t)
    have h2 := half_length_le_sum_map fun y hy => h y (List.mem_cons_of_mem x hy)
    push_cast
    linarith

end Trust

/-- Counterexample to C4 as stated: a single positive interaction older than
30 days is weighted 0.5, so a history of only positive outcomes scores 0.5,
not 1.0. -/
theorem trust_score_recency_counterexample :
    (Trust.score [⟨0, "a", "in", "hello", "ok", 0⟩] "a" (30 * 86400 + 1)).score
        = 1 / 2 ∧ ((1 : ℚ) / 2) ≠ 1 := by
  refine ⟨?_, by norm_num⟩
  have hfold : List.foldl (Trust.step (30 * 86400 + 1 - 30 * 86400) "a")
      ({} : Trust.Acc) [⟨0, "a", "in", "hello", "ok", 0⟩] =
      { positive := 1 / 2, negative := 0, total := 1, rtcVolume := 0 } := by
    norm_num [Trust.step, Trust.positiveOutcomes, Trust.RECENCY_WEIGHT]
  simp only [Trust.score]
  rw [hfold]
  norm_num [roundScaled]
  rw [show ((5000 : ℚ)) = ((5000 : ℤ) : ℚ) by norm_num, roundHalfEven_intCast]
  norm_num

/-- C4 (amended): the trust score equals
`round(clamp((positive_weighted - 3*negative_weighted) / max(total, 1),
-1, 1), 4)` with weight 1 inside the last 30 days and 0.5 otherwise; it
always lies in `[-1, 1]`; a nonempty history of only positive outcomes all
within the last 30 days yields 1.0; a nonempty history of only negative
outcomes yields -1.0. -/
theorem trust_score_spec (ixs : List Trust.Interaction) (agentId : String)
    (now : ℚ) :
    (Trust.score ixs agentId now).score =
      roundScaled 10000 (max (-1) (min 1
        ((Trust.posW ixs agentId (now - 30 * 86400) -
            3 * Trust.negW ixs agentId (now - 30 * 86400)) /
          max ((Trust.relevant ixs agentId).length : ℚ) 1))) ∧
    (-1 ≤ (Trust.score ixs agentId now).score ∧
      (Trust.score ixs agentId now).score ≤ 1) ∧
    ((∃ ix ∈ ixs, ix.agent_id = agentId) →
      (∀ ix ∈ ixs, ix.agent_id = agentId →
        ix.outcome ∈ Trust.positiveOutcomes ∧ now - 30 * 86400 ≤ ix.ts) →
      (Trust.score ixs agentId now).score = 1) ∧
    ((∃ ix ∈ ixs, ix.agent_id = agentId) →
      (∀ ix ∈ ixs, ix.agent_id = agentId →
        ix.outcome ∈ Trust.negativeOutcomes) →
      (Trust.score ixs agentId now).score = -1) := by
  have hfold := Trust.foldl_step_spec (now - 30 * 86400) agentId ixs {}
  have hscore : (Trust.score ixs agentId now).score =
      roundScaled 10000 (max (-1) (min 1
        ((Trust.posW ixs agentId (now - 30 * 86400) -
            3 * Trust.negW ixs agentId (now - 30 * 86400)) /
          max ((Trust.relevant ixs agentId).length : ℚ) 1))) := by
    rw [Trust.score]
    rw [hfold]
    have harith : Trust.posW ixs agentId (now - 30 * 86400) -
        Trust.negW ixs agentId (now - 30 * 86400) * 3 =
        Trust.posW ixs agentId (now - 30 * 86400) -
          3 * Trust.negW ixs agentId (now - 30 * 86400) := by ring
    simp [harith]
  refine ⟨hscore, ?_, ?_, ?_⟩
  · rw [hscore]
    have hb := roundScaled_mem_unit (q := max (-1) (min 1
        ((Trust.posW ixs agentId (now - 30 * 86400) -
            3 * Trust.negW ixs agentId (now - 30 * 86400)) /
          max ((Trust.relevant ixs agentId).length : ℚ) 1)))
      (s := 10000) (by norm_num) (le_max_left _ _)
      (max_le (by norm_num) (min_le_left _ _))
    exact hb
  · rintro ⟨ix0, hix0, hid0⟩ hall
    rw [hscore]
    set cutoff := now - 30 * 86400 with hcut
    have hmemrel : ∀ x ∈ Trust.relevant ixs agentId,
        x ∈ ixs ∧ x.agent_id = agentId := by
      intro x hx
      have := List.mem_filter.mp hx
      exact ⟨this.1, by simpa using this.2⟩
    have hfilterpos : (Trust.relevant ixs agentId).filter
        (fun ix => decide (ix.outcome ∈ Trust.positiveOutcomes)) =
        Trust.relevant ixs agentId := by
      refine List.filter_eq_self.mpr ?_
      intro x hx
      obtain ⟨hx1, hx2⟩ := hmemrel x hx
      simp [(hall x hx1 hx2).1]
    have hpos : Trust.posW ixs agentId cutoff =
        ((Trust.relevant ixs agentId).length : ℚ) := by
      rw [Trust.posW, hfilterpos]
      refine Trust.sum_map_all_one ?_
      intro x hx
      obtain ⟨hx1, hx2⟩ := hmemrel x hx
      simp [Trust.weightOf, (hall x hx1 hx2).2]
    have hneg : Trust.negW ixs agentId cutoff = 0 := by
      rw [Trust.negW]
      have : (Trust.relevant ixs agentId).filter
          (fun ix => decide (ix.outcome ∉ Trust.positiveOutcomes) &&
            decide (ix.outcome ∈ Trust.negativeOutcomes)) = [] := by
        refine List.filter_eq_nil_iff.mpr ?_
        intro x hx
        obtain ⟨hx1, hx2⟩ := hmemrel x hx
        simp [(hall x hx1 hx2).1]
      rw [this]
      simp
    have hn1 : (1 : ℚ) ≤ ((Trust.relevant ixs agentId).length : ℚ) := by
      have : ix0 ∈ Trust.relevant ixs agentId :=
        List.mem_filter.mpr ⟨hix0, by simp [hid0]⟩
      have hlen : 1 ≤ (Trust.relevant ixs agentId).length :=
        List.length_pos.mpr (List.ne_nil_of_mem this)
      exact_mod_cast hlen
    have hnz : ((Trust.relevant ixs agentId).length : ℚ) ≠ 0 := by linarith
    rw [hpos, hneg, max_eq_left hn1, mul_zero, sub_zero, div_self hnz, min_self,
      max_eq_right (by norm_num : (-1 : ℚ) ≤ 1)]
    simpa using roundScaled_intCast 10000 (by norm_num) 1
  · rintro ⟨ix0, hix0, hid0⟩ hall
    rw [hscore]
    set cutoff := now - 30 * 86400 with hcut
    have hmemrel : ∀ x ∈ Trust.relevant ixs agentId,
        x ∈ ixs ∧ x.agent_id = agentId := by
      intro x hx
      have := List.mem_filter.mp hx
      exact ⟨this.1, by simpa using this.2⟩
    have hdisj : ∀ s ∈ Trust.negativeOutcomes, s ∉ Trust.positiveOutcomes := by
      decide
    have hpos : Trust.posW ixs agentId cutoff = 0 := by
      rw [Trust.posW]
      have hnil : (Trust.relevant ixs agentId).filter
          (fun ix => decide (ix.outcome ∈ Trust.positiveOutcomes)) = [] := by
        refine List.filter_eq_nil_iff.mpr ?_
        intro x hx
        obtain ⟨hx1, hx2⟩ := hmemrel x hx
        simp [hdisj x.outcome (hall x hx1 hx2)]
      rw [hnil]
      simp
    have hfilterneg : (Trust.relevant ixs agentId).filter
        (fun ix => decide (ix.outcome ∉ Trust.positiveOutcomes) &&
          decide (ix.outcome ∈ Trust.negativeOutcomes)) =
        Trust.relevant ixs agentId := by
      refine List.filter_eq_self.mpr ?_
      intro x hx
      obtain ⟨hx1, hx2⟩ := hmemrel x hx
      simp [hall x hx1 hx2, hdisj x.outcome (hall x hx1 hx2)]
    have hnegge : ((Trust.relevant ixs agentId).length : ℚ) / 2 ≤
        Trust.negW ixs agentId cutoff := by
      rw [Trust.negW, hfilterneg]
      refine Trust.half_length_le_sum_map ?_
      intro x _
      rw [Trust.weightOf]
      split <;> norm_num
    have hn1 : (1 : ℚ) ≤ ((Trust.relevant ixs agentId).length : ℚ) := by
      have hmem : ix0 ∈ Trust.relevant ixs agentId :=
        List.mem_filter.mpr ⟨hix0, by simp [hid0]⟩
      have hlen : 1 ≤ (Trust.relevant ixs agentId).length :=
        List.length_pos.mpr (List.ne_nil_of_mem hmem)
      exact_mod_cast hlen
    have hnpos : (0 : ℚ) < ((Trust.relevant ixs agentId).length : ℚ) := by
      linarith
    have hraw : (Trust.posW ixs agentId cutoff -
        3 * Trust.negW ixs agentId cutoff) /
        max ((Trust.relevant ixs agentId).length : ℚ) 1 ≤ -1 := by
      rw [hpos, max_eq_left hn1, div_le_iff₀ hnpos]
      linarith
    rw [min_eq_right (le_trans hraw (by norm_num)), max_eq_left hraw]
    simpa using roundScaled_intCast 10000 (by norm_num) (-1)

/-- Witness for C4: a single recent positive interaction scores 1.0; a
single negative interaction scores -1.0. -/
theorem trust_score_spec_witness :
    (Trust.score [⟨100, "a", "in", "hello", "ok", 0⟩] "a" 100).score = 1 ∧
    (Trust.score [⟨100, "a", "in", "hello", "spam", 0⟩] "a" 100).score = -1 :=
  ⟨(trust_score_spec [⟨100, "a", "in", "hello", "ok", 0⟩] "a" 100).2.2.1
      ⟨⟨100, "a", "in", "hello", "ok", 0⟩, List.mem_singleton_self _, rfl⟩
      (by
        intro ix hix hid
        rw [List.mem_singleton] at hix
        subst hix
        exact ⟨by decide, by norm_num⟩),
   (trust_score_spec [⟨100, "a", "in", "hello", "spam", 0⟩] "a" 100).2.2.2
      ⟨⟨100, "a", "in", "hello", "spam", 0⟩, List.mem_singleton_self _, rfl⟩
      (by
        intro ix hix hid
        rw [List.mem_singleton] at hix
        subst hix
        decide)⟩

namespace Values

theorem boundaryMatchesBlob_empty (blob : List Char) :
    boundaryMatchesBlob "" blob = false := rfl

/-- A reported boundary is never the empty string: it has a keyword of
length over 3, so the boundary text is nonempty. -/
theorem check_boundaries_ne_empty {vd : ValuesData} {env : Env} {b : String}
    (h : check_boundaries vd env = some b) : b ≠ "" := by
  intro hb
  subst hb
  rw [check_boundaries] at h
  split at h
  · exact absurd h (by simp)
  · have := List.find?_some h
    rw [boundaryMatchesBlob_empty] at this
    exact absurd this (by simp)

end Values

/-- Counterexample to C9 as stated: a boundary with no token longer than 3
characters never matches, even though "every token of length greater than 3
appears in the blob" holds vacuously for it. -/
theorem values_check_boundaries_counterexample :
    Values.check_boundaries ⟨[], ["ab cd"]⟩ {} = none ∧
    (∀ t ∈ pySplit ("ab cd").toList, 3 < t.length →
      listContains (lowerL t) (Values.envBlob {}) = true) := by
  decide

/-- Helper: when `List.find?` returns an element, the list splits as a
prefix of non-matching elements, the found element, and a suffix. -/
theorem find?_first_split {α : Type} (p : α → Bool) :
    ∀ (l : List α) (b : α), l.find? p = some b →
      ∃ l1 l2, l = l1 ++ b :: l2 ∧ ∀ x ∈ l1, p x = false
  | [], b, h => by simp at h
  | a :: t, b, h => by
    by_cases hp : p a = true
    · rw [List.find?_cons_of_pos t hp] at h
      cases h
      exact ⟨[], t, rfl, by simp⟩
    · rw [List.find?_cons_of_neg t hp] at h
      obtain ⟨l1, l2, heq, hall⟩ := find?_first_split p t b h
      refine ⟨a :: l1, l2, by rw [heq]; rfl, ?_⟩
      intro x hx
      rcases List.mem_cons.mp hx with rfl | hx2
      · simpa using hp
      · exact hall x hx2

/-- C9 (amended): `check_boundaries` reports a violation iff some configured
boundary has at least one whitespace token longer than 3 characters and
every such token appears case-insensitively in the blob built from the
envelope's text, topics, offers, needs and kind; the reported boundary is
the first such configured boundary — every boundary listed before it fails
the condition — and the result is null when no boundary matches. -/
theorem values_check_boundaries_spec (vd : Values.ValuesData) (env : Env) :
    ((Values.check_boundaries vd env).isSome ↔
      ∃ b ∈ vd.boundaries, Values.boundaryKeywords b ≠ [] ∧
        ∀ kw ∈ Values.boundaryKeywords b,
          listContains kw (Values.envBlob env) = true) ∧
    (∀ b, Values.check_boundaries vd env = some b →
      b ∈ vd.boundaries ∧ Values.boundaryKeywords b ≠ [] ∧
        ∀ kw ∈ Values.boundaryKeywords b,
          listContains kw (Values.envBlob env) = true) ∧
    ((∀ b ∈ vd.boundaries, ¬(Values.boundaryKeywords b ≠ [] ∧
        ∀ kw ∈ Values.boundaryKeywords b,
          listContains kw (Values.envBlob env) = true)) →
      Values.check_boundaries vd env = none) ∧
    (∀ b, Values.check_boundaries vd env = some b →
      ∃ l1 l2, vd.boundaries = l1 ++ b :: l2 ∧
        ∀ b' ∈ l1, ¬(Values.boundaryKeywords b' ≠ [] ∧
          ∀ kw ∈ Values.boundaryKeywords b',
            listContains kw (Values.envBlob env) = true)) := by
  have hpred : ∀ b, Values.boundaryMatchesBlob b (Values.envBlob env) = true ↔
      (Values.boundaryKeywords b ≠ [] ∧
        ∀ kw ∈ Values.boundaryKeywords b,
          listContains kw (Values.envBlob env) = true) := by
    intro b
    simp [Values.boundaryMatchesBlob, List.all_eq_true, List.isEmpty_iff]
  refine ⟨?_, ?_, ?_, ?_⟩
  · rw [Values.check_boundaries]
    split
    · rename_i hemp
      rw [List.isEmpty_iff] at hemp
      simp [hemp]
    · rw [List.find?_isSome]
      constructor
      · rintro ⟨b, hb, hp⟩
        exact ⟨b, hb, (hpred b).mp hp⟩
      · rintro ⟨b, hb, hp⟩
        exact ⟨b, hb, (hpred b).mpr hp⟩
  · intro b hb
    rw [Values.check_boundaries] at hb
    split at hb
    · exact absurd hb (by simp)
    · have hfind : Values.boundaryMatchesBlob b (Values.envBlob env) = true := by
        have h2 := @List.find?_some _
          (fun x => Values.boundaryMatchesBlob x (Values.envBlob env)) b _ hb
        simpa using h2
      exact ⟨List.mem_of_find?_eq_some hb, (hpred b).mp hfind⟩
  · intro hall
    rw [Values.check_boundaries]
    split
    · rfl
    · rw [List.find?_eq_none]
      intro b hb
      rw [Bool.not_eq_true]
      rw [← Bool.not_eq_true]
      intro hp
      exact hall b hb ((hpred b).mp hp)
  · intro b hb
    rw [Values.check_boundaries] at hb
    split at hb
    · exact absurd hb (by simp)
    · obtain ⟨l1, l2, heq, hall⟩ := find?_first_split _ _ _ hb
      refine ⟨l1, l2, heq, ?_⟩
      intro b' hb' hcond
      have hfalse := hall b' hb'
      exact absurd ((hpred b').mpr hcond) (by simp [hfalse])

/-- Witness for C9: the boundary "no surveillance work" fires on an envelope
whose text contains both "surveillance" and "work". -/
theorem values_check_boundaries_spec_witness :
    "no surveillance work" ∈
        (⟨[], ["no surveillance work"]⟩ : Values.ValuesData).boundaries ∧
      Values.boundaryKeywords "no surveillance work" ≠ [] ∧
      ∀ kw ∈ Values.boundaryKeywords "no surveillance work",
        listContains kw (Values.envBlob { text := "surveillance work" }) = true :=
  (values_check_boundaries_spec ⟨[], ["no surveillance work"]⟩
    { text := "surveillance work" }).2.1 "no surveillance work" (by decide)

/-- C2: when the values component reports a violated boundary, `evaluate`
returns exactly one match — the synthetic `_boundary_enforcement` with a
log action — and the pipeline executes only that log action; no configured
user rule is matched or executed. -/
theorem rules_boundary_precedence (rules : List Rules.Rule)
    (cds : List (String × ℚ)) (now : ℚ) (ev : Rules.REvent)
    (trust : Option (String → ℚ)) (vd : Values.ValuesData)
    (goals : Option (List String)) (ts : Int) (v : String)
    (h : Values.check_boundaries vd ev.env = some v) :
    Rules.evaluate rules cds now ev trust (some vd) goals =
      [⟨"_boundary_enforcement",
        { action := "log", message := some ("Boundary violated: " ++ v) },
        some v⟩] ∧
    Rules.process rules cds now ev trust (some vd) goals ts =
      [{ action := "log",
         message := some (Rules.substitute ("Boundary violated: " ++ v) ev.env) }] := by
  have hne : v ≠ "" := Values.check_boundaries_ne_empty h
  have h1 : Rules.evaluate rules cds now ev trust (some vd) goals =
      [⟨"_boundary_enforcement",
        { action := "log", message := some ("Boundary violated: " ++ v) },
        some v⟩] := by
    rw [Rules.evaluate]
    simp [h, hne]
  refine ⟨h1, ?_⟩
  rw [Rules.process, h1]
  simp [Rules.executeAction]

/-- Witness for C2: the boundary dominates an enabled rule that would match
the bounty kind. -/
theorem rules_boundary_precedence_witness :
    Rules.evaluate [{ name := "r1", whenCond := { kind := some ["bounty"] } }]
        [] 0 { env := { kind := "bounty", text := "surveillance work" } } none
        (some ⟨[], ["no surveillance work"]⟩) none =
      [⟨"_boundary_enforcement",
        { action := "log",
          message := some ("Boundary violated: no surveillance work") },
        some "no surveillance work"⟩] :=
  (rules_boundary_precedence [{ name := "r1", whenCond := { kind := some ["bounty"] } }]
    [] 0 { env := { kind := "bounty", text := "surveillance work" } } none
    ⟨[], ["no surveillance work"]⟩ none 0 "no surveillance work" (by decide)).1

namespace Accord

theorem scanDomains_spec (tl : List Char) (accord : Accord) :
    ∀ (doms : List (String × List String)) (r : PushbackRec),
      scanDomains tl accord doms = some r →
      ∃ d ps, (d, ps) ∈ doms ∧ r.domain = d ∧ r.matched_phrase ∈ ps ∧
        listContains r.matched_phrase.toList tl = true ∧
        r.severity = (if d = "self_harm" then "breach" else "warning")
  | [], r, h => by simp [scanDomains] at h
  | (d, ps) :: rest, r, h => by
    rw [scanDomains] at h
    cases hf : ps.find? fun p => listContains p.toList tl with
    | some phrase =>
      rw [hf] at h
      have hr : ({ accord_id := accord.id,
                   domain := d,
                   matched_phrase := phrase,
                   severity := if d = "self_harm" then "breach" else "warning",
                   pushback_clause := accord.pushback_clause } :
          PushbackRec) = r :=
        Option.some.inj h
      subst hr
      have hcont : listContains phrase.toList tl = true := by
        have h2 := @List.find?_some _ (fun p => listContains p.toList tl) phrase _ hf
        simpa using h2
      exact ⟨d, ps, List.mem_cons_self _ _, rfl,
        List.mem_of_find?_eq_some hf, hcont, rfl⟩
    | none =>
      rw [hf] at h
      obtain ⟨d', ps', hm, hd, hp, hc, hs⟩ := scanDomains_spec tl accord rest r h
      exact ⟨d', ps', List.mem_cons_of_mem _ hm, hd, hp, hc, hs⟩

end Accord

/-- Counterexample to C6 as stated: `build_pushback` on an accord in state
`challenged` returns null (the code demands state exactly `active`), while
the claim promises an envelope for active-or-challenged accords. -/
theorem accord_pushback_challenged_counterexample :
    (lookupKey "acc1"
        [("acc1", ({ state := "challenged", peer_agent_id := "p" } : Accord.Accord))]).map
        (fun a => a.state) = some "challenged" ∧
    (Accord.build_pushback
        [("acc1", { state := "challenged", peer_agent_id := "p" })]
        "me" "acc1" "challenge text" "" "notice" 0).1 = none := by
  exact ⟨rfl, rfl⟩

/-- C6 (amended): `build_pushback` returns null when the accord is missing
or in any state other than `active` (in particular when dissolved, and also
when already challenged); exactly on an `active` accord it returns a
pushback envelope and moves the accord to `challenged`. -/
theorem accord_build_pushback_spec (accords : List (String × Accord.Accord))
    (selfId aid challenge evidence severity : String) (now : Int) :
    ((Accord.build_pushback accords selfId aid challenge evidence severity
        now).1.isSome ↔
      ∃ a, lookupKey aid accords = some a ∧ a.state = "active") ∧
    (∀ a, lookupKey aid accords = some a → a.state ≠ "active" →
      Accord.build_pushback accords selfId aid challenge evidence severity now =
        (none, accords)) ∧
    (∀ a, lookupKey aid accords = some a → a.state = "active" →
      (Accord.build_pushback accords selfId aid challenge evidence severity
          now).1 =
        some { kind := "accord", action := "pushback", accord_id := aid,
               agent_id := selfId, peer_agent_id := a.peer_agent_id,
               challenge := challenge, severity := severity,
               evidence := if evidence ≠ "" then some evidence else none,
               ts := now } ∧
      (lookupKey aid (Accord.build_pushback accords selfId aid challenge
          evidence severity now).2).map (fun x => x.state) = some "challenged") := by
  refine ⟨⟨?_, ?_⟩, ?_, ?_⟩
  · intro hsome
    cases hl : lookupKey aid accords with
    | none =>
      rw [Accord.build_pushback, hl] at hsome
      simp at hsome
    | some a =>
      by_cases hs : a.state = "active"
      · exact ⟨a, rfl, hs⟩
      · rw [Accord.build_pushback, hl] at hsome
        simp [hs] at hsome
  · rintro ⟨a, hl, hs⟩
    rw [Accord.build_pushback, hl]
    simp [hs]
  · intro a hl hs
    rw [Accord.build_pushback, hl]
    simp [hs]
  · intro a hl hs
    constructor
    · simp [Accord.build_pushback, hl, hs]
    · simp [Accord.build_pushback, hl, hs, lookupKey_updateKey_of_some hl]

/-- Witness for C6: a dissolved accord yields null; an active accord yields
an envelope and lands in `challenged`. -/
theorem accord_build_pushback_spec_witness :
    Accord.build_pushback [("a1", { state := "dissolved" })] "me" "a1" "c" ""
        "notice" 0 = (none, [("a1", { state := "dissolved" })]) ∧
    (Accord.build_pushback [("a1", { state := "active", peer_agent_id := "p" })]
        "me" "a1" "c" "" "notice" 0).1 =
      some { kind := "accord", action := "pushback", accord_id := "a1",
             agent_id := "me", peer_agent_id := "p", challenge := "c",
             severity := "notice", evidence := none, ts := 0 } :=
  ⟨(accord_build_pushback_spec [("a1", { state := "dissolved" })] "me" "a1" "c"
      "" "notice" 0).2.1 { state := "dissolved" } (by decide) (by decide),
   by
    have h := (accord_build_pushback_spec
      [("a1", { state := "active", peer_agent_id := "p" })] "me" "a1" "c" ""
      "notice" 0).2.2 { state := "active", peer_agent_id := "p" } (by decide)
      (by decide)
    simpa using h.1⟩

/-- C10: `check_pushback` returns a recommendation only when an accord
associated with the counterparty is found in state active or challenged and
the lowercased text contains one of the fixed pushback-domain phrases; the
severity is `breach` exactly for the `self_harm` domain and `warning`
otherwise; when every accord found for the counterparty is proposed or
dissolved it returns null. -/
theorem accord_check_pushback_spec (accords : List (String × Accord.Accord))
    (cid text : String) :
    (∀ r, Accord.check_pushback accords cid text = some r →
      (∃ a, Accord.find_accord_with accords cid = some a ∧
        (a.state = "active" ∨ a.state = "challenged")) ∧
      (∃ d ps, (d, ps) ∈ Accord.PUSHBACK_DOMAINS ∧ r.domain = d ∧
        r.matched_phrase ∈ ps ∧
        listContains r.matched_phrase.toList (lowerL text.toList) = true) ∧
      (r.severity = "breach" ↔ r.domain = "self_harm") ∧
      (r.domain ≠ "self_harm" → r.severity = "warning")) ∧
    (∀ a, Accord.find_accord_with accords cid = some a →
      a.state ≠ "active" → a.state ≠ "challenged" →
      Accord.check_pushback accords cid text = none) := by
  constructor
  · intro r hr
    cases hf : Accord.find_accord_with accords cid with
    | none =>
      rw [Accord.check_pushback, hf] at hr
      exact absurd hr (by simp)
    | some a =>
      rw [Accord.check_pushback, hf] at hr
      have hr2 : (if a.state = "active" ∨ a.state = "challenged" then
          Accord.scanDomains (lowerL text.toList) a Accord.PUSHBACK_DOMAINS
        else none) = some r := hr
      by_cases hst : a.state = "active" ∨ a.state = "challenged"
      · rw [if_pos hst] at hr2
        obtain ⟨d, ps, hm, hd, hp, hc, hs⟩ :=
          Accord.scanDomains_spec (lowerL text.toList) a Accord.PUSHBACK_DOMAINS r hr2
        refine ⟨⟨a, rfl, hst⟩, ⟨d, ps, hm, hd, hp, hc⟩, ?_, ?_⟩
        · subst hd
          by_cases hdd : r.domain = "self_harm"
          · rw [hs, if_pos hdd]
            simp [hdd]
          · rw [hs, if_neg hdd]
            simp [hdd]
        · subst hd
          intro hne
          rw [hs, if_neg hne]
      · rw [if_neg hst] at hr2
        exact absurd hr2 (by simp)
  · intro a hf h1 h2
    have hgoal : Accord.check_pushback accords cid text =
        (if a.state = "active" ∨ a.state = "challenged" then
          Accord.scanDomains (lowerL text.toList) a Accord.PUSHBACK_DOMAINS
        else none) := by
      rw [Accord.check_pushback, hf]
    rw [hgoal, if_neg]
    rintro (h | h)
    · exact h1 h
    · exact h2 h

/-- Witness for C10: an active accord with the counterparty plus the phrase
"kill myself" yields a breach recommendation in the self_harm domain, and
the phrase "the earth is flat" yields a warning recommendation in the
factual_error domain. -/
theorem accord_check_pushback_spec_witness :
    ((∃ a, Accord.find_accord_with
        [("a1", { state := "active", peer_agent_id := "p",
                  pushback_clause := "cl" })] "p" = some a ∧
      (a.state = "active" ∨ a.state = "challenged")) ∧
    (∃ d ps, (d, ps) ∈ Accord.PUSHBACK_DOMAINS ∧
      ("self_harm" : String) = d ∧ ("kill myself" : String) ∈ ps ∧
      listContains ("kill myself" : String).toList
        (lowerL ("I want to kill myself" : String).toList) = true) ∧
    (("breach" : String) = "breach" ↔ ("self_harm" : String) = "self_harm") ∧
    (("self_harm" : String) ≠ "self_harm" → ("breach" : String) = "warning")) ∧
    ((∃ a, Accord.find_accord_with
        [("a1", { state := "active", peer_agent_id := "p",
                  pushback_clause := "cl" })] "p" = some a ∧
      (a.state = "active" ∨ a.state = "challenged")) ∧
    (∃ d ps, (d, ps) ∈ Accord.PUSHBACK_DOMAINS ∧
      ("factual_error" : String) = d ∧ ("the earth is flat" : String) ∈ ps ∧
      listContains ("the earth is flat" : String).toList
        (lowerL ("Obviously the earth is flat" : String).toList) = true) ∧
    (("warning" : String) = "breach" ↔ ("factual_error" : String) = "self_harm") ∧
    (("factual_error" : String) ≠ "self_harm" →
      ("warning" : String) = "warning")) := by
  constructor
  · have h := (accord_check_pushback_spec
      [("a1", { state := "active", peer_agent_id := "p", pushback_clause := "cl" })]
      "p" "I want to kill myself").1
      { accord_id := "a1", domain := "self_harm", matched_phrase := "kill myself",
        severity := "breach", pushback_clause := "cl" } (by decide)
    exact h
  · have h := (accord_check_pushback_spec
      [("a1", { state := "active", peer_agent_id := "p", pushback_clause := "cl" })]
      "p" "Obviously the earth is flat").1
      { accord_id := "a1", domain := "factual_error",
        matched_phrase := "the earth is flat",
        severity := "warning", pushback_clause := "cl" } (by decide)
    exact h

/-- Counterexample to C5 as stated: a contract in state `accepted` can hold
funded, unreleased escrow (escrow may be funded from `accepted` on), yet
`settle()` fails there because `accepted -> settled` is not a valid
transition, and the escrow stays unreleased. -/
theorem contract_settle_accepted_counterexample :
    (Contracts.settle
      { contracts := [("c1", { id := "c1", state := "accepted",
                               ctype := "rent", seller_id := "s",
                               buyer_id := "b", price_rtc := 10 })],
        escrow := [("c1", { contract_id := "c1", amount_rtc := 10 })] }
      "c1" 0).1 = .error "Invalid transition: accepted -> settled" ∧
    (lookupKey "c1" (Contracts.settle
      { contracts := [("c1", { id := "c1", state := "accepted",
                               ctype := "rent", seller_id := "s",
                               buyer_id := "b", price_rtc := 10 })],
        escrow := [("c1", { contract_id := "c1", amount_rtc := 10 })] }
      "c1" 0).2.escrow).map (fun e => e.released) = some false := by
  exact ⟨rfl, rfl⟩

/-- C5 (amended): for a contract in a state from which `settled` is a valid
transition, with funded, unreleased escrow, `settle()` moves the contract
to `settled` and releases the escrow to the seller; the penalty deducted is
`escrow_amount · penalty_pct / 100` when a `breached` event exists in the
history and 0 otherwise, and the released amount is the escrow amount minus
that penalty. -/
theorem contract_settle_spec (st : Contracts.CMState) (cid : String)
    (now : Int) (ctr : Contracts.Contract) (esc : Contracts.Escrow)
    (hc : lookupKey cid st.contracts = some ctr)
    (hallow : "settled" ∈ Contracts.VALID_TRANSITIONS ctr.state)
    (he : lookupKey cid st.escrow = some esc)
    (hrel : esc.released = false) :
    (Contracts.settle st cid now).1 = .ok (some
      { released_to := ctr.seller_id,
        amount_rtc := esc.amount_rtc - Contracts.penaltyOf ctr esc,
        penalty_deducted := Contracts.penaltyOf ctr esc }) ∧
    (lookupKey cid (Contracts.settle st cid now).2.contracts).map
      (fun c => c.state) = some "settled" ∧
    lookupKey cid (Contracts.settle st cid now).2.escrow = some
      { esc with
        released := true,
        released_to := ctr.seller_id,
        released_at := now,
        penalty_deducted := Contracts.penaltyOf ctr esc } := by
  have hsettle : Contracts.settle st cid now =
      (.ok (some { released_to := ctr.seller_id,
                   amount_rtc := esc.amount_rtc - Contracts.penaltyOf ctr esc,
                   penalty_deducted := Contracts.penaltyOf ctr esc }),
       { contracts := updateKey cid
           { ctr with
             state := "settled",
             events := ctr.events ++
               [{ ts := now, type := "settled", byAgent := "",
                  reason := some "Final settlement" }],
             history_hash := Contracts.historyHash (ctr.events ++
               [{ ts := now, type := "settled", byAgent := "",
                  reason := some "Final settlement" }]),
             settled_at := now } st.contracts,
         escrow := updateKey cid
           { esc with
             released := true,
             released_to := ctr.seller_id,
             released_at := now,
             penalty_deducted := Contracts.penaltyOf ctr esc } st.escrow }) := by
    simp [Contracts.settle, Contracts.transition, Contracts.release_escrow,
          hc, he, hrel, hallow, lookupKey_updateKey, updateKey_updateKey,
          Contracts.penaltyOf, List.any_append]
  rw [hsettle]
  refine ⟨rfl, ?_, ?_⟩
  · rw [lookupKey_updateKey_of_some hc]
    rfl
  · rw [lookupKey_updateKey_of_some he]

/-- Witness for C5: settling a breached 10-RTC rental with 10% penalty
releases 9 RTC to the seller with `penalty_deducted = 1`. -/
theorem contract_settle_spec_witness :
    (Contracts.settle
      { contracts := [("c1", { id := "c1", state := "breached",
                               ctype := "rent", seller_id := "s",
                               buyer_id := "b", price_rtc := 10,
                               penalty_pct := 10,
                               events := [{ ts := 1, type := "breached",
                                            byAgent := "b" }] })],
        escrow := [("c1", { contract_id := "c1", amount_rtc := 10 })] }
      "c1" 5).1 = .ok (some
      { released_to := "s", amount_rtc := 9, penalty_deducted := 1 }) := by
  have h := (contract_settle_spec
    { contracts := [("c1", { id := "c1", state := "breached", ctype := "rent",
                             seller_id := "s", buyer_id := "b", price_rtc := 10,
                             penalty_pct := 10,
                             events := [{ ts := 1, type := "breached",
                                          byAgent := "b" }] })],
      escrow := [("c1", { contract_id := "c1", amount_rtc := 10 })] }
    "c1" 5
    { id := "c1", state := "breached", ctype := "rent", seller_id := "s",
      buyer_id := "b", price_rtc := 10, penalty_pct := 10,
      events := [{ ts := 1, type := "breached", byAgent := "b" }] }
    { contract_id := "c1", amount_rtc := 10 }
    rfl (by decide) rfl rfl).1
  rw [h]
  norm_num [Contracts.penaltyOf]

/-- C8: a ledger error containing `commitment_exists` (the 409 duplicate)
returns `{ok: false, error: "commitment_exists", commitment}` without
raising and logs a `duplicate` entry; every other ledger error logs an
`error` entry and re-raises. -/
theorem anchor_submit_duplicate_spec (res : Anchor.ClientOutcome)
    (comm dt : String) (log : List Anchor.LogEntry) (now : Int) :
    (∀ e, res = .err e →
      listContains ("commitment_exists".toList) e.toList = true →
      Anchor.submit res comm dt log now =
        (.ok { ok := false, error := some "commitment_exists",
               commitment := some comm },
         log ++ [{ ts := now, commitment := comm, data_type := dt,
                   status := "duplicate" }])) ∧
    (∀ e, res = .err e →
      listContains ("commitment_exists".toList) e.toList = false →
      Anchor.submit res comm dt log now =
        (.error e,
         log ++ [{ ts := now, commitment := comm, data_type := dt,
                   status := "error", error := some e }])) := by
  constructor
  · rintro e rfl hct
    simp only [Anchor.submit]
    rw [hct]
    simp
  · rintro e rfl hct
    simp only [Anchor.submit]
    rw [hct]
    simp

/-- Witness for C8 at a concrete duplicate error and a concrete transport
error. -/
theorem anchor_submit_duplicate_spec_witness :
    Anchor.submit (.err "409: commitment_exists") "c" "t" [] 7 =
      (.ok { ok := false, error := some "commitment_exists",
             commitment := some "c" },
       [{ ts := 7, commitment := "c", data_type := "t",
          status := "duplicate" }]) ∧
    Anchor.submit (.err "boom") "c" "t" [] 7 =
      (.error "boom",
       [{ ts := 7, commitment := "c", data_type := "t", status := "error",
          error := some "boom" }]) :=
  ⟨by
    have h := (anchor_submit_duplicate_spec (.err "409: commitment_exists")
      "c" "t" [] 7).1 "409: commitment_exists" rfl (by decide)
    simpa using h,
   by
    have h := (anchor_submit_duplicate_spec (.err "boom") "c" "t" [] 7).2
      "boom" rfl (by decide)
    simpa using h⟩

end BeaconSkill

